import Mathlib

/-!
# boltz-lnd: swap records, their store, and swap address verification

A shallow embedding of `database/swap.go` and `database/reverse.go`
(records, row parsing, queries and field updates over the SQL store), and of the
address checks exercised by `boltz/address_test.go`.
-/

set_option autoImplicit false

namespace BoltzLnd

/-! ## Go values -/

/-- Go `[]byte`: `none` is the nil slice, `some l` a non-nil slice holding `l`. -/
abbrev Bytes := Option (List UInt8)

/-- The bytes a slice holds; the nil slice holds none. -/
def Bytes.data : Bytes → List UInt8
  | none => []
  | some l => l

/-- Go `bytes.Equal`: same length and same bytes; a nil slice equals an empty one. -/
def Bytes.Equal (a b : Bytes) : Bool := a.data == b.data

/-- Go `error` values met in the database package. -/
inductive Error where
  /-- Go `hex.InvalidByteError`: a character that is no hex digit. -/
  | InvalidByte (c : Char)
  /-- Go `hex.ErrLength`: odd length hex string. -/
  | ErrLength
  /-- Go `errors.New(msg)`. -/
  | New (msg : String)
  /-- An error handed back by the storage backend (`database/sql`). -/
  | Storage (msg : String)
  /-- A nil pointer dereference (Go panics). -/
  | NilPointer
  /-- An `EncodingError`: chain parameters an address cannot be encoded with. -/
  | Encoding (msg : String)
  deriving DecidableEq, Repr

/-! ## encoding/hex -/

namespace Hex

/-- The lower-case digit of a nibble, `hextable[n]` with `hextable = "0123456789abcdef"`. -/
def hexDigit (n : UInt8) : Char :=
  if n < 10 then Char.ofNat (48 + n.toNat) else Char.ofNat (87 + n.toNat)

/-- Go `hex.Encode`: two lower-case digits per byte, high nibble first. -/
def Encode : List UInt8 → List Char
  | [] => []
  | b :: rest => hexDigit (b >>> 4) :: hexDigit (b &&& 0x0f) :: Encode rest

/-- Go `hex.EncodeToString`; the nil slice encodes like the empty one. -/
def EncodeToString (src : Bytes) : String :=
  String.mk (Encode src.data)

/-- Go `fromHexChar`: the value of a hex digit of either case. -/
def fromHexChar (c : Char) : Option UInt8 :=
  if '0' ≤ c ∧ c ≤ '9' then some (c.toNat - 48).toUInt8
  else if 'a' ≤ c ∧ c ≤ 'f' then some (c.toNat - 87).toUInt8
  else if 'A' ≤ c ∧ c ≤ 'F' then some (c.toNat - 55).toUInt8
  else none

/-- Go `hex.Decode` over the characters of the source: the bytes decoded before the first
problem, and the problem if any. A bad character is reported before a bad length. -/
def Decode : List Char → List UInt8 × Option Error
  | [] => ([], none)
  | [c] => ([], some (if (fromHexChar c).isNone then Error.InvalidByte c else Error.ErrLength))
  | p :: q :: rest =>
    match fromHexChar p, fromHexChar q with
    | none, _ => ([], some (Error.InvalidByte p))
    | some _, none => ([], some (Error.InvalidByte q))
    | some a, some b =>
      let r := Decode rest
      (((a <<< 4) ||| b) :: r.1, r.2)

/-- Go `hex.DecodeString`: always a non-nil slice (`src[:n]` of `[]byte(s)`), with the error. -/
def DecodeString (s : String) : Bytes × Option Error :=
  let r := Decode s.data
  (some r.1, r.2)

end Hex


/-! ## What the database package takes from elsewhere

`boltz.SwapUpdateEvent` with its `String` method, `boltz.ParseEvent`, `boltz.SwapRefunded`
and `boltz.CompletedStatus`, and the helpers `formatPrivateKey` / `parsePrivateKey` are
declared outside `swap.go` and `reverse.go`; the functions below take them as parameters. -/

/-- The `boltz` names used by the database package, over the event type `Event`. -/
structure Events (Event : Type) where
  /-- Go `SwapUpdateEvent.String`: the stored and displayed name of an event. -/
  eventString : Event → String
  /-- Go `boltz.ParseEvent`. -/
  ParseEvent : String → Event
  /-- Go `boltz.SwapRefunded`. -/
  SwapRefunded : Event
  /-- Go `boltz.CompletedStatus`: the names of the completed statuses. The names are spliced
  into SQL text between single quotes, so they are taken to hold no quote character. -/
  CompletedStatus : List String

/-- The private key helpers of the database package, over the key type `Key`
(`*btcec.PrivateKey`). -/
structure Keys (Key : Type) where
  /-- Go `formatPrivateKey`. -/
  formatPrivateKey : Key → String
  /-- Go `parsePrivateKey`, its first result. -/
  parsePrivateKey : Bytes → Key

/-! ## database/swap.go -/

/-- Go `type Swap struct`. -/
structure Swap (Event Key : Type) where
  Id : String
  Status : Event
  PrivateKey : Key
  Preimage : Bytes
  RedeemScript : Bytes
  Invoice : String
  Address : String
  ExpectedAmount : Int
  TimoutBlockHeight : Int
  LockupTransactionId : String
  RefundTransactionId : String
  deriving DecidableEq, Repr

/-- Go `type SwapSerialized struct`. -/
structure SwapSerialized where
  Id : String
  Status : String
  PrivateKey : String
  Preimage : String
  RedeemScript : String
  Invoice : String
  Address : String
  ExpectedAmount : Int
  TimeoutBlockHeight : Int
  LockupTransactionId : String
  RefundTransactionId : String
  deriving DecidableEq, Repr

/-- A row of table `swaps`, columns in the order of `SELECT *` and of the insert statement:
id, status, privateKey, preimage, redeemScript, invoice, address, expectedAmount,
timeoutBlockHeight, lockupTransactionId, refundTransactionId. -/
structure SwapRow where
  id : String
  status : String
  privateKey : String
  preimage : String
  redeemScript : String
  invoice : String
  address : String
  expectedAmount : Int
  timeoutBlockHeight : Int
  lockupTransactionId : String
  refundTransactionId : String
  deriving DecidableEq, Repr

/-- Go `type ReverseSwap struct`. -/
structure ReverseSwap (Event Key : Type) where
  Id : String
  Status : Event
  AcceptZeroConf : Bool
  PrivateKey : Key
  Preimage : Bytes
  RedeemScript : Bytes
  Invoice : String
  ClaimAddress : String
  OnchainAmount : Int
  TimeoutBlockHeight : Int
  LockupTransactionId : String
  ClaimTransactionId : String
  deriving DecidableEq, Repr

/-- Go `type ReverseSwapSerialized struct`. -/
structure ReverseSwapSerialized where
  Id : String
  Status : String
  AcceptZeroConf : Bool
  PrivateKey : String
  Preimage : String
  RedeemScript : String
  Invoice : String
  ClaimAddress : String
  OnchainAmount : Int
  TimeoutBlockHeight : Int
  LockupTransactionId : String
  ClaimTransactionId : String
  deriving DecidableEq, Repr

/-- A row of table `reverseSwaps`, columns in the order of `SELECT *` and of the insert
statement. -/
structure ReverseSwapRow where
  id : String
  status : String
  acceptZeroConf : Bool
  privateKey : String
  preimage : String
  redeemScript : String
  invoice : String
  claimAddress : String
  expectedAmount : Int
  timeoutBlockHeight : Int
  lockupTransactionId : String
  claimTransactionId : String
  deriving DecidableEq, Repr

/-- The store behind `database.db`: the rows of the two tables in the order the backend
returns them, and the backend's condition. When `fault` is set every statement fails with
that error and changes nothing. -/
structure Database where
  swaps : List SwapRow
  reverseSwaps : List ReverseSwapRow
  fault : Option String
  deriving DecidableEq, Repr

section Forward

variable {Event Key : Type}

/-- Go `Swap.Serialize`. -/
def Swap.Serialize (ev : Events Event) (ks : Keys Key) (swap : Swap Event Key) :
    SwapSerialized :=
  let preimage := if swap.Preimage.isSome then Hex.EncodeToString swap.Preimage else ""
  { Id := swap.Id
    Status := ev.eventString swap.Status
    PrivateKey := ks.formatPrivateKey swap.PrivateKey
    Preimage := preimage
    RedeemScript := Hex.EncodeToString swap.RedeemScript
    Invoice := swap.Invoice
    Address := swap.Address
    ExpectedAmount := swap.ExpectedAmount
    TimeoutBlockHeight := swap.TimoutBlockHeight
    LockupTransactionId := swap.LockupTransactionId
    RefundTransactionId := swap.RefundTransactionId }

/-- The column values `CreateSwap` hands to its insert statement, in column order. -/
def CreateSwap.values (ev : Events Event) (ks : Keys Key) (swap : Swap Event Key) : SwapRow :=
  let preimage := if swap.Preimage.isSome then Hex.EncodeToString swap.Preimage else ""
  { id := swap.Id
    status := ev.eventString swap.Status
    privateKey := ks.formatPrivateKey swap.PrivateKey
    preimage := preimage
    redeemScript := Hex.EncodeToString swap.RedeemScript
    invoice := swap.Invoice
    address := swap.Address
    expectedAmount := swap.ExpectedAmount
    timeoutBlockHeight := swap.TimoutBlockHeight
    lockupTransactionId := swap.LockupTransactionId
    refundTransactionId := swap.RefundTransactionId }

/-- The serialized form read as a row: each field in the column of its name. -/
def SwapSerialized.columns (s : SwapSerialized) : SwapRow :=
  { id := s.Id
    status := s.Status
    privateKey := s.PrivateKey
    preimage := s.Preimage
    redeemScript := s.RedeemScript
    invoice := s.Invoice
    address := s.Address
    expectedAmount := s.ExpectedAmount
    timeoutBlockHeight := s.TimeoutBlockHeight
    lockupTransactionId := s.LockupTransactionId
    refundTransactionId := s.RefundTransactionId }

/-- Go `parseSwap`, on the row the cursor stands on: the pair `(*Swap, error)` it returns.
The columns are typed, so `rows.Scan` succeeds. -/
def parseSwap (ev : Events Event) (ks : Keys Key) (row : SwapRow) :
    Option (Swap Event Key) × Option Error :=
  let status := ev.ParseEvent row.status
  match Hex.DecodeString row.privateKey with
  | (_, some err) => (none, some err)
  | (privateKeyBytes, none) =>
    let privateKey := ks.parsePrivateKey privateKeyBytes
    -- `swap.Preimage` stays the nil slice of `var swap Swap` when the column is empty
    let decoded : Bytes × Option Error :=
      if row.preimage ≠ "" then Hex.DecodeString row.preimage else (none, none)
    match decoded with
    | (_, some err) => (none, some err)
    | (preimage, none) =>
      let redeem := Hex.DecodeString row.redeemScript
      (some
        { Id := row.id
          Status := status
          PrivateKey := privateKey
          Preimage := preimage
          RedeemScript := redeem.1
          Invoice := row.invoice
          Address := row.address
          ExpectedAmount := row.expectedAmount
          TimoutBlockHeight := row.timeoutBlockHeight
          LockupTransactionId := row.lockupTransactionId
          RefundTransactionId := row.refundTransactionId },
       redeem.2)

/-- The text of the statement `QuerySwap` runs: the id spliced between single quotes. -/
def QuerySwap.statement (id : String) : String :=
  "SELECT * FROM swaps WHERE id = '" ++ id ++ "'"

/-- Go `Database.QuerySwap`: the statement text with the id spliced in is handed to the SQL
engine, and the first row of the result is parsed. The engine is a parameter: `sql text` is
the filter the statement `text` selects rows of table `swaps` with, or `none` when the
engine refuses the text, which `db.Query` reports as an error. -/
def Database.QuerySwap (ev : Events Event) (ks : Keys Key)
    (sql : String → Option (SwapRow → Bool)) (database : Database)
    (id : String) : Option (Swap Event Key) × Option Error :=
  match database.fault with
  | some e => (none, some (Error.Storage e))
  | none =>
    match sql (QuerySwap.statement id) with
    | none => (none, some (Error.Storage "statement refused"))
    | some selected =>
      match database.swaps.filter selected with
      | row :: _ => parseSwap ev ks row
      | [] => (none, some (Error.New ("could not find Swap " ++ id)))

/-- An id that stands for itself between the quotes of an SQL string literal: it holds no
quote character, which would end the literal, and no NUL character, which would end the
statement text. -/
def QuerySwap.plainId (id : String) : Prop :=
  '\'' ∉ id.data ∧ Char.ofNat 0 ∉ id.data

instance (id : String) : Decidable (QuerySwap.plainId id) :=
  inferInstanceAs (Decidable (_ ∧ _))

/-- What an SQL engine does with the statement of `QuerySwap` for a plain id: the text
between the quotes is a string literal, and the statement selects the rows whose id column
is that string. For any other id the text is another statement, or none, and nothing is
said of it. -/
def ReadsIdLiteral (sql : String → Option (SwapRow → Bool)) : Prop :=
  ∀ id : String, QuerySwap.plainId id →
    sql (QuerySwap.statement id) = some (fun row => decide (row.id = id))

/-- The loop of `querySwaps` over the rows of the result set, `swaps` as gathered so far. -/
def querySwaps.loop (ev : Events Event) (ks : Keys Key) :
    List SwapRow → List (Swap Event Key) → List (Swap Event Key) × Option Error
  | [], swaps => (swaps, none)
  | row :: rest, swaps =>
    match parseSwap ev ks row with
    | (_, some err) => ([], some err)
    | (some swap, none) => querySwaps.loop ev ks rest (swaps ++ [swap])
    | (none, none) => ([], some Error.NilPointer)

/-- Go `Database.querySwaps`, the query given as the row filter of its `WHERE` clause. The
result slice is a list, the nil slice the empty list. -/
def Database.querySwaps (ev : Events Event) (ks : Keys Key) (database : Database)
    (query : SwapRow → Bool) : List (Swap Event Key) × Option Error :=
  match database.fault with
  | some e => ([], some (Error.Storage e))
  | none => querySwaps.loop ev ks (database.swaps.filter query) []

/-- The string literals of `status NOT IN ('` ++ `strings.Join(..., "','")` ++ `')`: the
names joined, or the one empty literal when there is no name. -/
def notInLiterals (names : List String) : List String :=
  match names with
  | [] => [""]
  | _ => names

/-- Go `Database.QuerySwaps`. -/
def Database.QuerySwaps (ev : Events Event) (ks : Keys Key) (database : Database) :
    List (Swap Event Key) × Option Error :=
  database.querySwaps ev ks (fun _ => true)

/-- Go `Database.QueryPendingSwaps`. -/
def Database.QueryPendingSwaps (ev : Events Event) (ks : Keys Key) (database : Database) :
    List (Swap Event Key) × Option Error :=
  database.querySwaps ev ks (fun row => decide (row.status ∉ notInLiterals ev.CompletedStatus))

/-- Go `Database.QueryRefundableSwaps`; `currentBlockHeight` is a `uint32`, printed in decimal
into the statement. -/
def Database.QueryRefundableSwaps (ev : Events Event) (ks : Keys Key) (database : Database)
    (currentBlockHeight : Nat) : List (Swap Event Key) × Option Error :=
  database.querySwaps ev ks (fun row =>
    decide (row.status ∉ notInLiterals ev.CompletedStatus) &&
    decide (row.timeoutBlockHeight ≤ ((currentBlockHeight % 2 ^ 32 : Nat) : Int)))

/-- Go `database.db.Exec("UPDATE swaps SET ... WHERE id = ?", ...)`: `set` is the assignment
list of the statement. A statement that matches no row is no error. -/
def Database.execUpdateSwaps (database : Database) (set : SwapRow → SwapRow) (id : String) :
    Database × Option Error :=
  match database.fault with
  | some e => (database, some (Error.Storage e))
  | none =>
    ({ database with swaps := database.swaps.map (fun row => if row.id = id then set row else row) },
     none)

/-- What a method with a pointer receiver and a pointer argument leaves behind: the record
behind the pointer, the store, and the returned error. -/
structure Outcome (Record : Type) where
  record : Record
  database : Database
  err : Option Error

/-- Go `Database.UpdateSwapStatus`. -/
def Database.UpdateSwapStatus (ev : Events Event) (database : Database)
    (swap : Swap Event Key) (status : Event) : Outcome (Swap Event Key) :=
  let swap := { swap with Status := status }
  let r := database.execUpdateSwaps (fun row => { row with status := ev.eventString status }) swap.Id
  { record := swap, database := r.1, err := r.2 }

/-- Go `Database.SetSwapInvoice`. -/
def Database.SetSwapInvoice (database : Database)
    (swap : Swap Event Key) (invoice : String) : Outcome (Swap Event Key) :=
  let swap := { swap with Invoice := invoice }
  let r := database.execUpdateSwaps (fun row => { row with invoice := invoice }) swap.Id
  { record := swap, database := r.1, err := r.2 }

/-- Go `Database.SetSwapLockupTransactionId`. -/
def Database.SetSwapLockupTransactionId (database : Database)
    (swap : Swap Event Key) (lockupTransactionId : String) : Outcome (Swap Event Key) :=
  let swap := { swap with LockupTransactionId := lockupTransactionId }
  let r := database.execUpdateSwaps
    (fun row => { row with lockupTransactionId := lockupTransactionId }) swap.Id
  { record := swap, database := r.1, err := r.2 }

/-- Go `Database.SetSwapRefundTransactionId`. -/
def Database.SetSwapRefundTransactionId (ev : Events Event) (database : Database)
    (swap : Swap Event Key) (refundTransactionId : String) : Outcome (Swap Event Key) :=
  let swap := { swap with RefundTransactionId := refundTransactionId }
  let r := database.execUpdateSwaps
    (fun row => { row with
      status := ev.eventString ev.SwapRefunded
      refundTransactionId := refundTransactionId }) swap.Id
  { record := swap, database := r.1, err := r.2 }

end Forward

/-! ## database/reverse.go -/

section Reverse

variable {Event Key : Type}

/-- Go `ReverseSwap.Serialize`. -/
def ReverseSwap.Serialize (ev : Events Event) (ks : Keys Key)
    (reverseSwap : ReverseSwap Event Key) : ReverseSwapSerialized :=
  { Id := reverseSwap.Id
    Status := ev.eventString reverseSwap.Status
    AcceptZeroConf := reverseSwap.AcceptZeroConf
    PrivateKey := ks.formatPrivateKey reverseSwap.PrivateKey
    Preimage := Hex.EncodeToString reverseSwap.Preimage
    RedeemScript := Hex.EncodeToString reverseSwap.RedeemScript
    Invoice := reverseSwap.Invoice
    ClaimAddress := reverseSwap.ClaimAddress
    OnchainAmount := reverseSwap.OnchainAmount
    TimeoutBlockHeight := reverseSwap.TimeoutBlockHeight
    LockupTransactionId := reverseSwap.LockupTransactionId
    ClaimTransactionId := reverseSwap.ClaimTransactionId }

/-- The column values `CreateReverseSwap` hands to its insert statement, in column order. -/
def CreateReverseSwap.values (ev : Events Event) (ks : Keys Key)
    (reverseSwap : ReverseSwap Event Key) : ReverseSwapRow :=
  { id := reverseSwap.Id
    status := ev.eventString reverseSwap.Status
    acceptZeroConf := reverseSwap.AcceptZeroConf
    privateKey := ks.formatPrivateKey reverseSwap.PrivateKey
    preimage := Hex.EncodeToString reverseSwap.Preimage
    redeemScript := Hex.EncodeToString reverseSwap.RedeemScript
    invoice := reverseSwap.Invoice
    claimAddress := reverseSwap.ClaimAddress
    expectedAmount := reverseSwap.OnchainAmount
    timeoutBlockHeight := reverseSwap.TimeoutBlockHeight
    lockupTransactionId := reverseSwap.LockupTransactionId
    claimTransactionId := reverseSwap.ClaimTransactionId }

/-- The serialized form read as a row: each field in the column at its place. -/
def ReverseSwapSerialized.columns (s : ReverseSwapSerialized) : ReverseSwapRow :=
  { id := s.Id
    status := s.Status
    acceptZeroConf := s.AcceptZeroConf
    privateKey := s.PrivateKey
    preimage := s.Preimage
    redeemScript := s.RedeemScript
    invoice := s.Invoice
    claimAddress := s.ClaimAddress
    expectedAmount := s.OnchainAmount
    timeoutBlockHeight := s.TimeoutBlockHeight
    lockupTransactionId := s.LockupTransactionId
    claimTransactionId := s.ClaimTransactionId }

/-- Go `parseReverseSwap`, on the row the cursor stands on: the pair `(*ReverseSwap, error)`
it returns. The columns are typed, so `rows.Scan` succeeds. -/
def parseReverseSwap (ev : Events Event) (ks : Keys Key) (row : ReverseSwapRow) :
    Option (ReverseSwap Event Key) × Option Error :=
  let status := ev.ParseEvent row.status
  match Hex.DecodeString row.privateKey with
  | (_, some err) => (none, some err)
  | (privateKeyBytes, none) =>
    let privateKey := ks.parsePrivateKey privateKeyBytes
    match Hex.DecodeString row.preimage with
    | (_, some err) => (none, some err)
    | (preimage, none) =>
      let redeem := Hex.DecodeString row.redeemScript
      (some
        { Id := row.id
          Status := status
          AcceptZeroConf := row.acceptZeroConf
          PrivateKey := privateKey
          Preimage := preimage
          RedeemScript := redeem.1
          Invoice := row.invoice
          ClaimAddress := row.claimAddress
          OnchainAmount := row.expectedAmount
          TimeoutBlockHeight := row.timeoutBlockHeight
          LockupTransactionId := row.lockupTransactionId
          ClaimTransactionId := row.claimTransactionId },
       redeem.2)

/-- Go `Database.QueryReverseSwap`: `SELECT * FROM reverseSwaps WHERE id = ?`, first row
parsed. -/
def Database.QueryReverseSwap (ev : Events Event) (ks : Keys Key) (database : Database)
    (id : String) : Option (ReverseSwap Event Key) × Option Error :=
  match database.fault with
  | some e => (none, some (Error.Storage e))
  | none =>
    match database.reverseSwaps.filter (fun row => row.id = id) with
    | row :: _ => parseReverseSwap ev ks row
    | [] => (none, some (Error.New ("could not find Reverse Swap " ++ id)))

/-- The loop of `queryReverseSwaps` over the rows of the result set. -/
def queryReverseSwaps.loop (ev : Events Event) (ks : Keys Key) :
    List ReverseSwapRow → List (ReverseSwap Event Key) →
      List (ReverseSwap Event Key) × Option Error
  | [], swaps => (swaps, none)
  | row :: rest, swaps =>
    match parseReverseSwap ev ks row with
    | (_, some err) => ([], some err)
    | (some swap, none) => queryReverseSwaps.loop ev ks rest (swaps ++ [swap])
    | (none, none) => ([], some Error.NilPointer)

/-- Go `Database.queryReverseSwaps`, the query given as the row filter of its `WHERE` clause. -/
def Database.queryReverseSwaps (ev : Events Event) (ks : Keys Key) (database : Database)
    (query : ReverseSwapRow → Bool) : List (ReverseSwap Event Key) × Option Error :=
  match database.fault with
  | some e => ([], some (Error.Storage e))
  | none => queryReverseSwaps.loop ev ks (database.reverseSwaps.filter query) []

/-- Go `Database.QueryReverseSwaps`. -/
def Database.QueryReverseSwaps (ev : Events Event) (ks : Keys Key) (database : Database) :
    List (ReverseSwap Event Key) × Option Error :=
  database.queryReverseSwaps ev ks (fun _ => true)

/-- Go `Database.QueryPendingReverseSwaps`. -/
def Database.QueryPendingReverseSwaps (ev : Events Event) (ks : Keys Key)
    (database : Database) : List (ReverseSwap Event Key) × Option Error :=
  database.queryReverseSwaps ev ks
    (fun row => decide (row.status ∉ notInLiterals ev.CompletedStatus))

/-- Go `database.db.Exec("UPDATE reverseSwaps SET ... WHERE id = ?", ...)`: `set` is the
assignment list of the statement. A statement that matches no row is no error. -/
def Database.execUpdateReverseSwaps (database : Database)
    (set : ReverseSwapRow → ReverseSwapRow) (id : String) : Database × Option Error :=
  match database.fault with
  | some e => (database, some (Error.Storage e))
  | none =>
    ({ database with
        reverseSwaps := database.reverseSwaps.map (fun row => if row.id = id then set row else row) },
     none)

/-- Go `Database.UpdateReverseSwapStatus`. -/
def Database.UpdateReverseSwapStatus (ev : Events Event) (database : Database)
    (reverseSwap : ReverseSwap Event Key) (status : Event) : Outcome (ReverseSwap Event Key) :=
  let reverseSwap := { reverseSwap with Status := status }
  let r := database.execUpdateReverseSwaps
    (fun row => { row with status := ev.eventString status }) reverseSwap.Id
  { record := reverseSwap, database := r.1, err := r.2 }

/-- Go `Database.SetReverseSwapLockupTransactionId`. -/
def Database.SetReverseSwapLockupTransactionId (database : Database)
    (reverseSwap : ReverseSwap Event Key) (lockupTransactionId : String) :
    Outcome (ReverseSwap Event Key) :=
  let reverseSwap := { reverseSwap with LockupTransactionId := lockupTransactionId }
  let r := database.execUpdateReverseSwaps
    (fun row => { row with lockupTransactionId := lockupTransactionId }) reverseSwap.Id
  { record := reverseSwap, database := r.1, err := r.2 }

/-- Go `Database.SetReverseSwapClaimTransactionId`. -/
def Database.SetReverseSwapClaimTransactionId (database : Database)
    (reverseSwap : ReverseSwap Event Key) (claimTransactionId : String) :
    Outcome (ReverseSwap Event Key) :=
  let reverseSwap := { reverseSwap with ClaimTransactionId := claimTransactionId }
  let r := database.execUpdateReverseSwaps
    (fun row => { row with claimTransactionId := claimTransactionId }) reverseSwap.Id
  { record := reverseSwap, database := r.1, err := r.2 }

end Reverse

/-! ## Comparing records, and the rows a query is to return -/

section Compare

variable {Event Key : Type}

/-- Two `Swap` records equal field for field, the byte slices compared with `bytes.Equal`. -/
def Swap.Equal (a b : Swap Event Key) : Prop :=
  a.Id = b.Id ∧ a.Status = b.Status ∧ a.PrivateKey = b.PrivateKey ∧
  a.Preimage.Equal b.Preimage = true ∧ a.RedeemScript.Equal b.RedeemScript = true ∧
  a.Invoice = b.Invoice ∧ a.Address = b.Address ∧ a.ExpectedAmount = b.ExpectedAmount ∧
  a.TimoutBlockHeight = b.TimoutBlockHeight ∧
  a.LockupTransactionId = b.LockupTransactionId ∧
  a.RefundTransactionId = b.RefundTransactionId

/-- Two `ReverseSwap` records equal field for field, the byte slices compared with
`bytes.Equal`. -/
def ReverseSwap.Equal (a b : ReverseSwap Event Key) : Prop :=
  a.Id = b.Id ∧ a.Status = b.Status ∧ a.AcceptZeroConf = b.AcceptZeroConf ∧
  a.PrivateKey = b.PrivateKey ∧
  a.Preimage.Equal b.Preimage = true ∧ a.RedeemScript.Equal b.RedeemScript = true ∧
  a.Invoice = b.Invoice ∧ a.ClaimAddress = b.ClaimAddress ∧
  a.OnchainAmount = b.OnchainAmount ∧ a.TimeoutBlockHeight = b.TimeoutBlockHeight ∧
  a.LockupTransactionId = b.LockupTransactionId ∧
  a.ClaimTransactionId = b.ClaimTransactionId

/-- The rows the refund query is to select at height `h`, in the words of its contract: the
rows of `swaps` whose status is no completed status and whose timeout height is at most
`h`. -/
def refundableRows (ev : Events Event) (database : Database) (h : Nat) : List SwapRow :=
  database.swaps.filter
    (fun row => decide (row.status ∉ ev.CompletedStatus ∧ row.timeoutBlockHeight ≤ (h : Int)))

/-- The frame of an `UPDATE swaps SET ... WHERE id = ?`: the table holds the same number of
rows in the same order; a row of that id is the old row with the assignments `set` applied,
every other row is the old row; the other table and the backend are as before. -/
def SwapsUpdated (id : String) (set : SwapRow → SwapRow) (before after : Database) : Prop :=
  List.Forall₂
    (fun old new => (old.id = id → new = set old) ∧ (old.id ≠ id → new = old))
    before.swaps after.swaps ∧
  after.reverseSwaps = before.reverseSwaps ∧ after.fault = before.fault

/-- The frame of an `UPDATE reverseSwaps SET ... WHERE id = ?`, as `SwapsUpdated`. -/
def ReverseSwapsUpdated (id : String) (set : ReverseSwapRow → ReverseSwapRow)
    (before after : Database) : Prop :=
  List.Forall₂
    (fun old new => (old.id = id → new = set old) ∧ (old.id ≠ id → new = old))
    before.reverseSwaps after.reverseSwaps ∧
  after.swaps = before.swaps ∧ after.fault = before.fault

/-- What an update does to the store: on a working backend it returns no error and leaves
the store as `frame` says; on a failing backend it returns the backend's error and leaves
the store as it was. -/
def Outcome.Framed {Record : Type} (o : Outcome Record) (before : Database)
    (frame : Database → Database → Prop) : Prop :=
  (before.fault = none → o.err = none ∧ frame before o.database) ∧
  (∀ e, before.fault = some e → o.err = some (Error.Storage e) ∧ o.database = before)

end Compare

/-! ## Sample parameters and data, for evaluating the definitions -/

namespace Sample

/-- An event table whose events are their names. -/
def events : Events String :=
  { eventString := fun e => e
    ParseEvent := fun s => s
    SwapRefunded := "swap.refunded"
    CompletedStatus := ["swap.refunded", "swap.abandoned", "invoice.settled", "transaction.claimed"] }

/-- Keys that are their serialized bytes, formatted in hex. -/
def keys : Keys (List UInt8) :=
  { formatPrivateKey := fun k => Hex.EncodeToString (some k)
    parsePrivateKey := fun b => b.data }

/-- A forward swap that waits for its lockup transaction. -/
def swap : Swap String (List UInt8) :=
  { Id := "a1b2c3"
    Status := "swap.created"
    PrivateKey := [0x01, 0x02, 0xfe]
    Preimage := none
    RedeemScript := some [0xa9, 0x14, 0x6a]
    Invoice := "lnbc1"
    Address := "bc1qexample"
    ExpectedAmount := 100000
    TimoutBlockHeight := 650000
    LockupTransactionId := ""
    RefundTransactionId := "" }

/-- A reverse swap. -/
def reverseSwap : ReverseSwap String (List UInt8) :=
  { Id := "r4d5e6"
    Status := "swap.created"
    AcceptZeroConf := true
    PrivateKey := [0x0a, 0x0b]
    Preimage := some [0x11, 0x22, 0x33]
    RedeemScript := some [0xa9, 0x14]
    Invoice := "lnbc2"
    ClaimAddress := "bc1qclaim"
    OnchainAmount := 50000
    TimeoutBlockHeight := 650100
    LockupTransactionId := ""
    ClaimTransactionId := "" }

/-- A store that holds the two sample records. -/
def database : Database :=
  { swaps := [CreateSwap.values events keys swap]
    reverseSwaps := [CreateReverseSwap.values events keys reverseSwap]
    fault := none }

/-- A store without rows. -/
def emptyDatabase : Database :=
  { swaps := [], reverseSwaps := [], fault := none }

/-- An SQL engine that knows one statement, the lookup of `QuerySwap` with an id literal
without a quote character, and refuses every other text. -/
def sql (statement : String) : Option (SwapRow → Bool) :=
  let opening := "SELECT * FROM swaps WHERE id = '".data
  let literal := (statement.data.drop opening.length).dropLast
  if statement.data = opening ++ literal ++ ['\''] ∧ '\'' ∉ literal then
    some (fun row => decide (row.id = String.mk literal))
  else
    none

/-- The sample reverse swap without a preimage (a nil slice). -/
def reverseSwapNilPreimage : ReverseSwap String (List UInt8) :=
  { reverseSwap with Preimage := none }

/-- The sample swap with an empty preimage that is not nil. -/
def swapEmptyPreimage : Swap String (List UInt8) :=
  { swap with Preimage := some [] }

/-- The sample swap without a redeem script (a nil slice). -/
def swapNilRedeemScript : Swap String (List UInt8) :=
  { swap with RedeemScript := none }

/-- The row of the sample swap with a redeem script column that is no hex string. -/
def badRedeemScriptRow : SwapRow :=
  { CreateSwap.values events keys swap with redeemScript := "zz" }

/-- The row of the sample reverse swap with a redeem script column that is no hex string. -/
def badRedeemScriptReverseRow : ReverseSwapRow :=
  { CreateReverseSwap.values events keys reverseSwap with redeemScript := "zz" }

end Sample

/-! ## Hashes and text encodings used by address derivation

SHA-256 (FIPS 180-4), RIPEMD-160, Base58Check and Bech32 (BIP 173) come from libraries;
they are written out here so that addresses can be computed. Words are natural numbers
below `2 ^ 32`. -/

namespace Crypto

/-- Addition of 32-bit words. -/
def add32 (a b : Nat) : Nat := (a + b) % 2 ^ 32

/-- Rotation of a 32-bit word to the right. -/
def rotr32 (x n : Nat) : Nat := ((x >>> n) ||| (x <<< (32 - n))) % 2 ^ 32

/-- Rotation of a 32-bit word to the left. -/
def rotl32 (x n : Nat) : Nat := ((x <<< n) ||| (x >>> (32 - n))) % 2 ^ 32

/-- Complement of a 32-bit word. -/
def not32 (x : Nat) : Nat := (2 ^ 32 - 1) ^^^ x

/-- The four bytes of a word, most significant first. -/
def bytesBE (w : Nat) : List UInt8 :=
  [(w >>> 24).toUInt8, (w >>> 16).toUInt8, (w >>> 8).toUInt8, w.toUInt8]

/-- The four bytes of a word, least significant first. -/
def bytesLE (w : Nat) : List UInt8 :=
  [w.toUInt8, (w >>> 8).toUInt8, (w >>> 16).toUInt8, (w >>> 24).toUInt8]

/-- The words of a block, four bytes each, most significant byte first. -/
def wordsBE : List UInt8 → List Nat
  | a :: b :: c :: d :: rest =>
    (a.toNat <<< 24 ||| b.toNat <<< 16 ||| c.toNat <<< 8 ||| d.toNat) :: wordsBE rest
  | _ => []

/-- The words of a block, four bytes each, least significant byte first. -/
def wordsLE : List UInt8 → List Nat
  | a :: b :: c :: d :: rest =>
    (d.toNat <<< 24 ||| c.toNat <<< 16 ||| b.toNat <<< 8 ||| a.toNat) :: wordsLE rest
  | _ => []

/-- The eight bytes of a 64-bit length, least significant first. -/
def length64LE (n : Nat) : List UInt8 :=
  (List.range 8).map fun i => (n >>> (8 * i)).toUInt8

/-- Merkle–Damgård padding to whole 64-byte blocks: the byte `0x80`, zero bytes, and the
bit length in eight bytes; `lengthBytes` orders those eight bytes. -/
def pad (lengthBytes : Nat → List UInt8) (msg : List UInt8) : List UInt8 :=
  msg ++ [0x80] ++ List.replicate ((119 - msg.length % 64) % 64) 0 ++
    lengthBytes (8 * msg.length)

/-- The 64-byte blocks of a padded message, `count` of them. -/
def blocks : Nat → List UInt8 → List (List UInt8)
  | 0, _ => []
  | count + 1, bytes => bytes.take 64 :: blocks count (bytes.drop 64)

namespace SHA256

/-- The round constants. -/
def K : List Nat :=
  [0x428a2f98, 0x71374491, 0xb5c0fbcf, 0xe9b5dba5, 0x3956c25b, 0x59f111f1, 0x923f82a4,
   0xab1c5ed5, 0xd807aa98, 0x12835b01, 0x243185be, 0x550c7dc3, 0x72be5d74, 0x80deb1fe,
   0x9bdc06a7, 0xc19bf174, 0xe49b69c1, 0xefbe4786, 0x0fc19dc6, 0x240ca1cc, 0x2de92c6f,
   0x4a7484aa, 0x5cb0a9dc, 0x76f988da, 0x983e5152, 0xa831c66d, 0xb00327c8, 0xbf597fc7,
   0xc6e00bf3, 0xd5a79147, 0x06ca6351, 0x14292967, 0x27b70a85, 0x2e1b2138, 0x4d2c6dfc,
   0x53380d13, 0x650a7354, 0x766a0abb, 0x81c2c92e, 0x92722c85, 0xa2bfe8a1, 0xa81a664b,
   0xc24b8b70, 0xc76c51a3, 0xd192e819, 0xd6990624, 0xf40e3585, 0x106aa070, 0x19a4c116,
   0x1e376c08, 0x2748774c, 0x34b0bcb5, 0x391c0cb3, 0x4ed8aa4a, 0x5b9cca4f, 0x682e6ff3,
   0x748f82ee, 0x78a5636f, 0x84c87814, 0x8cc70208, 0x90befffa, 0xa4506ceb, 0xbef9a3f7,
   0xc67178f2]

/-- The chaining value, and within a block the working variables `a` to `h`. -/
structure State where
  a : Nat
  b : Nat
  c : Nat
  d : Nat
  e : Nat
  f : Nat
  g : Nat
  h : Nat
  deriving DecidableEq, Repr

/-- The initial chaining value. -/
def init : State :=
  { a := 0x6a09e667, b := 0xbb67ae85, c := 0x3c6ef372, d := 0xa54ff53a,
    e := 0x510e527f, f := 0x9b05688c, g := 0x1f83d9ab, h := 0x5be0cd19 }

/-- The message schedule, extended by `count` words. -/
def schedule : Nat → List Nat → List Nat
  | 0, w => w
  | count + 1, w =>
    let t := w.length
    let w15 := w.getD (t - 15) 0
    let w2 := w.getD (t - 2) 0
    let s0 := rotr32 w15 7 ^^^ rotr32 w15 18 ^^^ (w15 >>> 3)
    let s1 := rotr32 w2 17 ^^^ rotr32 w2 19 ^^^ (w2 >>> 10)
    schedule count (w ++ [add32 (add32 (add32 (w.getD (t - 16) 0) s0) (w.getD (t - 7) 0)) s1])

/-- One round of the compression function. -/
def round (s : State) (k w : Nat) : State :=
  let S1 := rotr32 s.e 6 ^^^ rotr32 s.e 11 ^^^ rotr32 s.e 25
  let ch := (s.e &&& s.f) ^^^ (not32 s.e &&& s.g)
  let t1 := add32 (add32 (add32 (add32 s.h S1) ch) k) w
  let S0 := rotr32 s.a 2 ^^^ rotr32 s.a 13 ^^^ rotr32 s.a 22
  let maj := (s.a &&& s.b) ^^^ (s.a &&& s.c) ^^^ (s.b &&& s.c)
  let t2 := add32 S0 maj
  { a := add32 t1 t2, b := s.a, c := s.b, d := s.c, e := add32 s.d t1, f := s.e, g := s.f,
    h := s.g }

/-- The rounds over the constants and the schedule. -/
def rounds : State → List Nat → List Nat → State
  | s, k :: ks, w :: ws => rounds (round s k w) ks ws
  | s, _, _ => s

/-- The compression of one block into the chaining value. -/
def compress (hash : State) (block : List UInt8) : State :=
  let s := rounds hash K (schedule 48 (wordsBE block))
  { a := add32 hash.a s.a, b := add32 hash.b s.b, c := add32 hash.c s.c,
    d := add32 hash.d s.d, e := add32 hash.e s.e, f := add32 hash.f s.f,
    g := add32 hash.g s.g, h := add32 hash.h s.h }

/-- The 32-byte digest, `sha256.Sum256`. -/
def Sum256 (msg : List UInt8) : List UInt8 :=
  let padded := pad (fun n => (length64LE n).reverse) msg
  let s := (blocks (padded.length / 64) padded).foldl compress init
  bytesBE s.a ++ bytesBE s.b ++ bytesBE s.c ++ bytesBE s.d ++
    bytesBE s.e ++ bytesBE s.f ++ bytesBE s.g ++ bytesBE s.h

end SHA256

namespace RIPEMD160

/-- The chaining value, and within a block the working variables of one line. -/
structure State where
  a : Nat
  b : Nat
  c : Nat
  d : Nat
  e : Nat
  deriving DecidableEq, Repr

/-- The initial chaining value. -/
def init : State :=
  { a := 0x67452301, b := 0xefcdab89, c := 0x98badcfe, d := 0x10325476, e := 0xc3d2e1f0 }

/-- The order of the message words in the left line. -/
def rL : List Nat :=
  [0, 1, 2, 3, 4, 5, 6, 7, 8, 9, 10, 11, 12, 13, 14, 15,
   7, 4, 13, 1, 10, 6, 15, 3, 12, 0, 9, 5, 2, 14, 11, 8,
   3, 10, 14, 4, 9, 15, 8, 1, 2, 7, 0, 6, 13, 11, 5, 12,
   1, 9, 11, 10, 0, 8, 12, 4, 13, 3, 7, 15, 14, 5, 6, 2,
   4, 0, 5, 9, 7, 12, 2, 10, 14, 1, 3, 8, 11, 6, 15, 13]

/-- The order of the message words in the right line. -/
def rR : List Nat :=
  [5, 14, 7, 0, 9, 2, 11, 4, 13, 6, 15, 8, 1, 10, 3, 12,
   6, 11, 3, 7, 0, 13, 5, 10, 14, 15, 8, 12, 4, 9, 1, 2,
   15, 5, 1, 3, 7, 14, 6, 9, 11, 8, 12, 2, 10, 0, 4, 13,
   8, 6, 4, 1, 3, 11, 15, 0, 5, 12, 2, 13, 9, 7, 10, 14,
   12, 15, 10, 4, 1, 5, 8, 7, 6, 2, 13, 14, 0, 3, 9, 11]

/-- The rotation amounts of the left line. -/
def sL : List Nat :=
  [11, 14, 15, 12, 5, 8, 7, 9, 11, 13, 14, 15, 6, 7, 9, 8,
   7, 6, 8, 13, 11, 9, 7, 15, 7, 12, 15, 9, 11, 7, 13, 12,
   11, 13, 6, 7, 14, 9, 13, 15, 14, 8, 13, 6, 5, 12, 7, 5,
   11, 12, 14, 15, 14, 15, 9, 8, 9, 14, 5, 6, 8, 6, 5, 12,
   9, 15, 5, 11, 6, 8, 13, 12, 5, 12, 13, 14, 11, 8, 5, 6]

/-- The rotation amounts of the right line. -/
def sR : List Nat :=
  [8, 9, 9, 11, 13, 15, 15, 5, 7, 7, 8, 11, 14, 14, 12, 6,
   9, 13, 15, 7, 12, 8, 9, 11, 7, 7, 12, 7, 6, 15, 13, 11,
   9, 7, 15, 11, 8, 6, 6, 14, 12, 13, 5, 14, 13, 13, 7, 5,
   15, 5, 8, 11, 14, 14, 6, 14, 6, 9, 12, 9, 12, 5, 15, 8,
   8, 5, 12, 9, 12, 5, 14, 6, 8, 13, 6, 5, 15, 13, 11, 11]

/-- The added constants of the left line, one for each group of sixteen rounds. -/
def kL : List Nat := [0x00000000, 0x5a827999, 0x6ed9eba1, 0x8f1bbcdc, 0xa953fd4e]

/-- The added constants of the right line. -/
def kR : List Nat := [0x50a28be6, 0x5c4dd124, 0x6d703ef3, 0x7a6d76e9, 0x00000000]

/-- The boolean function of group `j` (of sixteen rounds). -/
def f (j x y z : Nat) : Nat :=
  match j with
  | 0 => x ^^^ y ^^^ z
  | 1 => (x &&& y) ||| (not32 x &&& z)
  | 2 => (x ||| not32 y) ^^^ z
  | 3 => (x &&& z) ||| (y &&& not32 z)
  | _ => x ^^^ (y ||| not32 z)

/-- One round of a line: `group` selects the boolean function, `k` is the added constant,
`x` the message word and `s` the rotation amount. -/
def round (st : State) (group k x s : Nat) : State :=
  let t := add32 (rotl32 (add32 (add32 (add32 st.a (f group st.b st.c st.d)) x) k) s) st.e
  { a := st.e, b := t, c := st.b, d := rotl32 st.c 10, e := st.d }

/-- The rounds `j`, `j + 1`, ... of a line, as many as the order `r` still lists; the right
line takes the boolean functions in the opposite order. -/
def line (right : Bool) (ks : List Nat) (x : List Nat) :
    State → Nat → List Nat → List Nat → State
  | st, j, r :: rs, s :: ss =>
    let group := if right then 4 - j / 16 else j / 16
    line right ks x (round st group (ks.getD (j / 16) 0) (x.getD r 0) s) (j + 1) rs ss
  | st, _, _, _ => st

/-- The compression of one block into the chaining value. -/
def compress (hash : State) (block : List UInt8) : State :=
  let x := wordsLE block
  let l := line false kL x hash 0 rL sL
  let r := line true kR x hash 0 rR sR
  { a := add32 (add32 hash.b l.c) r.d
    b := add32 (add32 hash.c l.d) r.e
    c := add32 (add32 hash.d l.e) r.a
    d := add32 (add32 hash.e l.a) r.b
    e := add32 (add32 hash.a l.b) r.c }

/-- The 20-byte digest. -/
def Sum (msg : List UInt8) : List UInt8 :=
  let padded := pad length64LE msg
  let s := (blocks (padded.length / 64) padded).foldl compress init
  bytesLE s.a ++ bytesLE s.b ++ bytesLE s.c ++ bytesLE s.d ++ bytesLE s.e

end RIPEMD160

/-- Go `btcutil.Hash160`: RIPEMD-160 of SHA-256. -/
def Hash160 (msg : List UInt8) : List UInt8 := RIPEMD160.Sum (SHA256.Sum256 msg)

namespace Base58

/-- The Bitcoin Base58 alphabet. -/
def alphabet : List Char := "123456789ABCDEFGHJKLMNPQRSTUVWXYZabcdefghijkmnopqrstuvwxyz".data

/-- The number a byte string writes in base 256, most significant byte first. -/
def toNat (bytes : List UInt8) : Nat :=
  bytes.foldl (fun acc b => acc * 256 + b.toNat) 0

/-- The digits of `n` in base 58, least significant first, at most `fuel` of them. -/
def digits : Nat → Nat → List Nat
  | 0, _ => []
  | fuel + 1, n => if n = 0 then [] else n % 58 :: digits fuel (n / 58)

/-- Go `base58.Encode`: one `1` for each leading zero byte, then the digits in base 58 of the
number the other bytes write, most significant first. Two digits for each byte are enough
to write it. -/
def Encode (bytes : List UInt8) : String :=
  let zeros := bytes.takeWhile (· == 0)
  let rest := bytes.dropWhile (· == 0)
  String.mk
    (List.replicate zeros.length '1' ++
      ((digits (2 * rest.length) (toNat rest)).reverse.map fun d => alphabet.getD d '1'))

/-- Go `base58.CheckEncode`: the version byte, the payload and the first four bytes of the
double SHA-256 of both, in Base58. -/
def CheckEncode (input : List UInt8) (version : UInt8) : String :=
  let body := version :: input
  Encode (body ++ (SHA256.Sum256 (SHA256.Sum256 body)).take 4)

end Base58

namespace Bech32

/-- The Bech32 character set of the data part. -/
def charset : List Char := "qpzry9x8gf2tvdw0s3jn54khce6mua7l".data

/-- The generator of the checksum. -/
def generator : List Nat := [0x3b6a57b2, 0x26508e6d, 0x1ea119fa, 0x3d4233dd, 0x2a1462b3]

/-- One step of the checksum over a 5-bit value. -/
def polymodStep (chk v : Nat) : Nat :=
  let top := chk >>> 25
  let chk := ((chk &&& 0x1ffffff) <<< 5) ^^^ v
  (List.range 5).foldl
    (fun acc i => if (top >>> i) &&& 1 = 1 then acc ^^^ generator.getD i 0 else acc) chk

/-- The checksum polynomial over 5-bit values. -/
def polymod (values : List Nat) : Nat := values.foldl polymodStep 1

/-- The human-readable part spread into 5-bit values. -/
def hrpExpand (hrp : List Char) : List Nat :=
  hrp.map (fun c => c.toNat >>> 5) ++ [0] ++ hrp.map (fun c => c.toNat &&& 31)

/-- The six 5-bit values of the checksum. -/
def createChecksum (hrp : List Char) (data : List Nat) : List Nat :=
  let pm := polymod (hrpExpand hrp ++ data ++ [0, 0, 0, 0, 0, 0]) ^^^ 1
  (List.range 6).map fun i => (pm >>> (5 * (5 - i))) &&& 31

/-- Go `bech32.Encode`: the human-readable part, the separator `1`, the data and the checksum
in the character set. -/
def Encode (hrp : String) (data : List Nat) : String :=
  String.mk
    (hrp.data ++ ['1'] ++
      (data ++ createChecksum hrp.data data).map fun v => charset.getD v 'q')

/-- Regrouping of bytes into 5-bit values, most significant bit first, the last group
padded with zero bits: `acc` holds the `bits` bits not yet written. -/
def toBase32 : List UInt8 → Nat → Nat → List Nat
  | [], acc, bits => if bits = 0 then [] else [(acc <<< (5 - bits)) &&& 31]
  | b :: rest, acc, bits =>
    let acc := (acc <<< 8) ||| b.toNat
    let bits := bits + 8
    if bits ≥ 10 then
      ((acc >>> (bits - 5)) &&& 31) :: ((acc >>> (bits - 10)) &&& 31) ::
        toBase32 rest (acc &&& (2 ^ (bits - 10) - 1)) (bits - 10)
    else
      ((acc >>> (bits - 5)) &&& 31) :: toBase32 rest (acc &&& (2 ^ (bits - 5) - 1)) (bits - 5)

end Bech32

end Crypto

/-! ## boltz/address.go

The source of this file is missing; `boltz/address_test.go` calls its four functions. They
are modelled from the specification and reproduce the addresses the tests expect. A
derivation returns the pair `(string, error)`. -/

/-- The fields of `chaincfg.Params` that address encoding reads. -/
structure Params where
  /-- The human-readable part of segwit addresses. -/
  Bech32HRPSegwit : String
  /-- The version byte of script hash addresses. -/
  ScriptHashAddrID : UInt8
  deriving DecidableEq, Repr

/-- Go `chaincfg.MainNetParams`, the fields above. -/
def MainNetParams : Params :=
  { Bech32HRPSegwit := "bc", ScriptHashAddrID := 0x05 }

/-- Modelled from the spec: the chain parameters `WitnessScriptHashAddress` can encode with,
those that are not "inconsistent/unset". The human-readable part is set (not empty) and
consistent with Bech32 (made of the characters `!` to `~`). -/
def validHRP (hrp : String) : Bool :=
  !hrp.data.isEmpty && hrp.data.all fun c => decide (33 ≤ c.toNat ∧ c.toNat ≤ 126)

/-- Modelled from the spec: `WitnessScriptHashAddress` of boltz/address.go, whose source is
missing. "The bech32-style encoding of the script's hash, version 0 witness program
(native segwit script hash). Fails with `EncodingError` only if the chain parameters are
inconsistent/unset." -/
def WitnessScriptHashAddress (chainParams : Params) (redeemScript : Bytes) :
    String × Option Error :=
  if validHRP chainParams.Bech32HRPSegwit then
    (Crypto.Bech32.Encode chainParams.Bech32HRPSegwit
      (0 :: Crypto.Bech32.toBase32 (Crypto.SHA256.Sum256 redeemScript.data) 0 0), none)
  else
    ("", some (Error.Encoding "invalid human-readable part"))

/-- Modelled from the spec: `ScriptHashAddress` of boltz/address.go, whose source is missing.
"The legacy base58Check encoding of the script's hash wrapped directly as a
pay-to-script-hash output." -/
def ScriptHashAddress (chainParams : Params) (redeemScript : Bytes) :
    String × Option Error :=
  (Crypto.Base58.CheckEncode (Crypto.Hash160 redeemScript.data) chainParams.ScriptHashAddrID,
    none)

/-- Modelled from the spec: "the serialized witness program for the script" of version 0,
that is `OP_0`, a push of 32 bytes, and the SHA-256 of the script. -/
def witnessProgram (redeemScript : Bytes) : List UInt8 :=
  [0x00, 0x20] ++ Crypto.SHA256.Sum256 redeemScript.data

/-- Modelled from the spec: `NestedScriptHashAddress` of boltz/address.go, whose source is
missing. "The legacy base58Check pay-to-script-hash encoding of the witness program that
wraps the original script: hash of the serialized witness program for the script, then
hash-and-encode that as P2SH." -/
def NestedScriptHashAddress (chainParams : Params) (redeemScript : Bytes) :
    String × Option Error :=
  (Crypto.Base58.CheckEncode (Crypto.Hash160 (witnessProgram redeemScript))
    chainParams.ScriptHashAddrID, none)

/-- The error of a rejected address, the `errors.New("invalid address")` that
boltz/address_test.go expects. -/
def InvalidAddress : Error := Error.New "invalid address"

/-- Modelled from the spec: `CheckSwapAddress` of boltz/address.go, whose source is missing.
"If `isReverseSwap` is true, the accepted address is only the nested-script-hash form. If
false, the accepted address is only the witness-script-hash form. Empty/malformed input
`address` fails with `InvalidAddress` regardless of direction. Equality comparison is exact
string/byte equality against the single accepted derived form for the given direction."
The result is `ok | Err(InvalidAddress)`: where the accepted form cannot be derived no
address matches it. -/
def CheckSwapAddress (chainParams : Params) (address : String) (redeemScript : Bytes)
    (isReverseSwap : Bool) : Option Error :=
  let accepted :=
    if isReverseSwap then NestedScriptHashAddress chainParams redeemScript
    else WitnessScriptHashAddress chainParams redeemScript
  if address = "" then some InvalidAddress
  else
    match accepted with
    | (encoded, none) => if address = encoded then none else some InvalidAddress
    | (_, some _) => some InvalidAddress

/-- The `redeemScript` of boltz/address_test.go. -/
def testRedeemScript : Bytes :=
  (Hex.DecodeString ("a9146a24b142de20b50871a247c1c66a6e41ee199017876321038ce1d1be5a22b396cc" ++
    "afc109c86717bc081301fe58d1958546d5aba647047af3670381a81ab1752102d23a7d39395f40a71a490c" ++
    "f79e0f2df5da2fb006fdab660bc0c78ef0c9ba457668ac")).1

/-! ## Theorems: encoding/hex -/

namespace Hex

theorem nibble_facts (b : UInt8) :
    fromHexChar (hexDigit (b >>> 4)) = some (b >>> 4) ∧
    fromHexChar (hexDigit (b &&& 0x0f)) = some (b &&& 0x0f) ∧
    (((b >>> 4) <<< 4) ||| (b &&& 0x0f)) = b := by
  rcases b with ⟨v⟩
  revert v
  decide

theorem Decode_Encode (bs : List UInt8) : Decode (Encode bs) = (bs, none) := by
  induction bs with
  | nil => rfl
  | cons b t ih =>
    obtain ⟨h1, h2, h3⟩ := nibble_facts b
    simp only [Encode, Decode, h1, h2, ih, h3]

theorem DecodeString_EncodeToString (b : Bytes) :
    DecodeString (EncodeToString b) = (some b.data, none) := by
  simp [DecodeString, EncodeToString, Decode_Encode]

theorem EncodeToString_eq_empty (b : Bytes) : EncodeToString b = "" ↔ b.data = [] := by
  unfold EncodeToString
  cases h : b.data with
  | nil => simp [Encode]
  | cons x t =>
    simp only [Encode, reduceCtorEq, iff_false]
    intro hc
    have := congrArg String.data hc
    simp at this

end Hex

/-! ## Theorems: serialization and row parsing -/

section ParseTheorems

variable {Event Key : Type}

theorem CreateSwap_values_eq (ev : Events Event) (ks : Keys Key) (swap : Swap Event Key) :
    CreateSwap.values ev ks swap = (swap.Serialize ev ks).columns := rfl

theorem CreateReverseSwap_values_eq (ev : Events Event) (ks : Keys Key)
    (reverseSwap : ReverseSwap Event Key) :
    CreateReverseSwap.values ev ks reverseSwap = (reverseSwap.Serialize ev ks).columns := rfl

/-- What `parseSwap` returns on the serialized form of a record. -/
theorem parseSwap_Serialize (ev : Events Event) (ks : Keys Key)
    (hev : ∀ e, ev.ParseEvent (ev.eventString e) = e)
    (hks : ∀ k, ∃ b, Hex.DecodeString (ks.formatPrivateKey k) = (b, none) ∧
      ks.parsePrivateKey b = k)
    (swap : Swap Event Key) :
    parseSwap ev ks (swap.Serialize ev ks).columns =
      (some { swap with
          Preimage := if swap.Preimage.data = [] then none else some swap.Preimage.data
          RedeemScript := some swap.RedeemScript.data }, none) := by
  obtain ⟨b, hb, hk⟩ := hks swap.PrivateKey
  rcases hp : swap.Preimage with _ | l
  · simp [parseSwap, Swap.Serialize, SwapSerialized.columns, hb, hk, hev, hp,
      Hex.DecodeString_EncodeToString, Bytes.data]
  · by_cases hl : l = []
    · subst hl
      have : Hex.EncodeToString (some []) = "" := by decide
      simp [parseSwap, Swap.Serialize, SwapSerialized.columns, hb, hk, hev, hp,
        Hex.DecodeString_EncodeToString, Bytes.data, this]
    · have hne : Hex.EncodeToString (some l) ≠ "" := by
        rw [Ne, Hex.EncodeToString_eq_empty]
        simpa [Bytes.data] using hl
      simp [parseSwap, Swap.Serialize, SwapSerialized.columns, hb, hk, hev, hp,
        Hex.DecodeString_EncodeToString, Bytes.data, hne, hl]

/-- What `parseReverseSwap` returns on the serialized form of a record. -/
theorem parseReverseSwap_Serialize (ev : Events Event) (ks : Keys Key)
    (hev : ∀ e, ev.ParseEvent (ev.eventString e) = e)
    (hks : ∀ k, ∃ b, Hex.DecodeString (ks.formatPrivateKey k) = (b, none) ∧
      ks.parsePrivateKey b = k)
    (reverseSwap : ReverseSwap Event Key) :
    parseReverseSwap ev ks (reverseSwap.Serialize ev ks).columns =
      (some { reverseSwap with
          Preimage := some reverseSwap.Preimage.data
          RedeemScript := some reverseSwap.RedeemScript.data }, none) := by
  obtain ⟨b, hb, hk⟩ := hks reverseSwap.PrivateKey
  simp [parseReverseSwap, ReverseSwap.Serialize, ReverseSwapSerialized.columns, hb, hk, hev,
    Hex.DecodeString_EncodeToString]

end ParseTheorems

/-! ## Theorems: the claims about serialization -/

section RoundTrip

variable {Event Key : Type}

/-- C2, as the code has it. When event names parse back to their events and formatted keys
parse back to their keys, the column values of the serialized form of every `Swap` and
every `ReverseSwap` (the values `CreateSwap` / `CreateReverseSwap` write) parse without an
error to a record that has every field of the original except for the nil-ness of its byte
slices, which hold the bytes of the original: the parsed `RedeemScript` is never nil; the
parsed `Preimage` of a `Swap` is nil when the original holds no bytes (nil or empty);
the parsed `Preimage` of a `ReverseSwap` is never nil. So the record is equal to the
original field for field with the byte slices compared by their bytes; a `Swap` without a
preimage serializes to the empty string and parses back to a `Swap` without a preimage;
and the parsed record is the original itself whenever its `RedeemScript` is not nil and
its `Preimage` is nil or not empty (`Swap`), or not nil (`ReverseSwap`). -/
theorem serialize_parse_roundtrip (ev : Events Event) (ks : Keys Key)
    (hev : ∀ e, ev.ParseEvent (ev.eventString e) = e)
    (hks : ∀ k, ∃ b, Hex.DecodeString (ks.formatPrivateKey k) = (b, none) ∧
      ks.parsePrivateKey b = k) :
    (∀ swap : Swap Event Key,
      CreateSwap.values ev ks swap = (swap.Serialize ev ks).columns ∧
      parseSwap ev ks (swap.Serialize ev ks).columns =
        (some { swap with
            Preimage := if swap.Preimage.data = [] then none else some swap.Preimage.data
            RedeemScript := some swap.RedeemScript.data }, none) ∧
      ∃ parsed, parseSwap ev ks (swap.Serialize ev ks).columns = (some parsed, none) ∧
        parsed.Equal swap ∧
        (swap.Preimage = none → (swap.Serialize ev ks).Preimage = "" ∧ parsed.Preimage = none) ∧
        (swap.Preimage ≠ some [] → swap.RedeemScript ≠ none → parsed = swap)) ∧
    (∀ reverseSwap : ReverseSwap Event Key,
      CreateReverseSwap.values ev ks reverseSwap = (reverseSwap.Serialize ev ks).columns ∧
      parseReverseSwap ev ks (reverseSwap.Serialize ev ks).columns =
        (some { reverseSwap with
            Preimage := some reverseSwap.Preimage.data
            RedeemScript := some reverseSwap.RedeemScript.data }, none) ∧
      ∃ parsed,
        parseReverseSwap ev ks (reverseSwap.Serialize ev ks).columns = (some parsed, none) ∧
        parsed.Equal reverseSwap ∧
        (reverseSwap.Preimage = none →
          (reverseSwap.Serialize ev ks).Preimage = "" ∧ parsed.Preimage = some []) ∧
        (reverseSwap.Preimage ≠ none → reverseSwap.RedeemScript ≠ none →
          parsed = reverseSwap)) := by
  refine ⟨fun swap => ⟨rfl, parseSwap_Serialize ev ks hev hks swap, _,
      parseSwap_Serialize ev ks hev hks swap, ?_, ?_, ?_⟩,
    fun reverseSwap => ⟨rfl, parseReverseSwap_Serialize ev ks hev hks reverseSwap, _,
      parseReverseSwap_Serialize ev ks hev hks reverseSwap, ?_, ?_, ?_⟩⟩
  · rcases swap with ⟨_, _, _, _ | p, _ | r, _, _, _, _, _, _⟩ <;>
      simp [Swap.Equal, Bytes.Equal, Bytes.data] <;>
      split <;> simp_all
  · intro h
    simp [Swap.Serialize, h, Bytes.data]
  · intro h1 h2
    rcases swap with ⟨_, _, _, _ | p, _ | r, _, _, _, _, _, _⟩ <;>
      simp_all [Bytes.data]
  · rcases reverseSwap with ⟨_, _, _, _, _ | p, _ | r, _, _, _, _, _, _⟩ <;>
      simp [ReverseSwap.Equal, Bytes.Equal, Bytes.data]
  · intro h
    simp only [ReverseSwap.Serialize, h, Bytes.data, and_true]
    decide
  · intro h1 h2
    rcases reverseSwap with ⟨_, _, _, _, _ | p, _ | r, _, _, _, _, _, _⟩ <;>
      simp_all [Bytes.data]

theorem Sample.events_roundtrip (e : String) :
    Sample.events.ParseEvent (Sample.events.eventString e) = e := rfl

theorem Sample.keys_roundtrip (k : List UInt8) :
    ∃ b, Hex.DecodeString (Sample.keys.formatPrivateKey k) = (b, none) ∧
      Sample.keys.parsePrivateKey b = k :=
  ⟨some k, Hex.DecodeString_EncodeToString (some k), rfl⟩

/-- The round trip at the sample records. -/
theorem serialize_parse_roundtrip_witness :
    (∃ parsed, parseSwap Sample.events Sample.keys
        (Sample.swap.Serialize Sample.events Sample.keys).columns = (some parsed, none) ∧
      parsed.Equal Sample.swap) ∧
    (∃ parsed, parseReverseSwap Sample.events Sample.keys
        (Sample.reverseSwap.Serialize Sample.events Sample.keys).columns = (some parsed, none) ∧
      parsed.Equal Sample.reverseSwap) :=
  have h := serialize_parse_roundtrip Sample.events Sample.keys
    Sample.events_roundtrip Sample.keys_roundtrip
  ⟨(h.1 Sample.swap).2.2.imp fun _ hp => ⟨hp.1, hp.2.1⟩,
   (h.2 Sample.reverseSwap).2.2.imp fun _ hp => ⟨hp.1, hp.2.1⟩⟩

/-- C2 fails as stated: with event names and keys that parse back, the serialized form of
a `ReverseSwap` without a preimage (nil) is the empty string and parses back to a record
with a preimage (empty, not nil); a `Swap` with an empty preimage that is not nil parses
back to one without a preimage; a `Swap` without a redeem script (nil) parses back to one
with an empty redeem script. In each case the parsed record is not the original. -/
theorem serialize_parse_not_identical :
    (Sample.reverseSwapNilPreimage.Serialize Sample.events Sample.keys).Preimage = "" ∧
    parseReverseSwap Sample.events Sample.keys
        (Sample.reverseSwapNilPreimage.Serialize Sample.events Sample.keys).columns =
      (some { Sample.reverseSwapNilPreimage with Preimage := some [] }, none) ∧
    parseReverseSwap Sample.events Sample.keys
        (Sample.reverseSwapNilPreimage.Serialize Sample.events Sample.keys).columns ≠
      (some Sample.reverseSwapNilPreimage, none) ∧
    parseSwap Sample.events Sample.keys
        (Sample.swapEmptyPreimage.Serialize Sample.events Sample.keys).columns =
      (some { Sample.swapEmptyPreimage with Preimage := none }, none) ∧
    parseSwap Sample.events Sample.keys
        (Sample.swapEmptyPreimage.Serialize Sample.events Sample.keys).columns ≠
      (some Sample.swapEmptyPreimage, none) ∧
    parseSwap Sample.events Sample.keys
        (Sample.swapNilRedeemScript.Serialize Sample.events Sample.keys).columns =
      (some { Sample.swapNilRedeemScript with RedeemScript := some [] }, none) ∧
    parseSwap Sample.events Sample.keys
        (Sample.swapNilRedeemScript.Serialize Sample.events Sample.keys).columns ≠
      (some Sample.swapNilRedeemScript, none) := by
  decide

end RoundTrip

/-! ## Theorems: field updates -/

section UpdateTheorems

variable {Event Key : Type}

theorem parseSwap_fields (ev : Events Event) (ks : Keys Key) (row : SwapRow)
    (swap : Swap Event Key) (err : Option Error)
    (h : parseSwap ev ks row = (some swap, err)) :
    swap.Id = row.id ∧ swap.Status = ev.ParseEvent row.status ∧
    swap.TimoutBlockHeight = row.timeoutBlockHeight ∧
    swap.LockupTransactionId = row.lockupTransactionId ∧
    swap.RefundTransactionId = row.refundTransactionId ∧
    swap.Invoice = row.invoice := by
  rcases h1 : Hex.DecodeString row.privateKey with ⟨b, _ | e⟩
  · by_cases hp : row.preimage = ""
    · simp only [parseSwap, h1, hp, ne_eq, not_true_eq_false, if_false, Prod.mk.injEq,
        Option.some.injEq] at h
      obtain ⟨rfl, _⟩ := h
      simp
    · rcases h2 : Hex.DecodeString row.preimage with ⟨p, _ | e⟩
      · simp only [parseSwap, h1, hp, h2, ne_eq, not_false_eq_true, if_true, Prod.mk.injEq,
          Option.some.injEq] at h
        obtain ⟨rfl, _⟩ := h
        simp
      · simp [parseSwap, h1, hp, h2] at h
  · simp [parseSwap, h1] at h

/-- The parse of a row depends on the status and transaction id columns only through the
fields of their names. -/
theorem parseSwap_update (ev : Events Event) (ks : Keys Key) (row : SwapRow)
    (status refundTransactionId : String) (swap : Swap Event Key)
    (h : parseSwap ev ks row = (some swap, none)) :
    parseSwap ev ks
        { row with status := status, refundTransactionId := refundTransactionId } =
      (some { swap with
          Status := ev.ParseEvent status
          RefundTransactionId := refundTransactionId }, none) := by
  rcases h1 : Hex.DecodeString row.privateKey with ⟨b, _ | e⟩
  · by_cases hp : row.preimage = ""
    · simp only [parseSwap, h1, hp, ne_eq, not_true_eq_false, if_false, Prod.mk.injEq,
        Option.some.injEq] at h ⊢
      obtain ⟨rfl, h⟩ := h
      simp [h]
    · rcases h2 : Hex.DecodeString row.preimage with ⟨p, _ | e⟩
      · simp only [parseSwap, h1, hp, h2, ne_eq, not_false_eq_true, if_true, Prod.mk.injEq,
          Option.some.injEq] at h ⊢
        obtain ⟨rfl, h⟩ := h
        simp [h]
      · simp [parseSwap, h1, hp, h2] at h
  · simp [parseSwap, h1] at h

theorem filter_id_map_update {Row : Type} (key : Row → String) (set : Row → Row)
    (hset : ∀ row, key (set row) = key row) (id : String) (rows : List Row) :
    (rows.map (fun row => if key row = id then set row else row)).filter
        (fun row => decide (key row = id)) =
      (rows.filter (fun row => decide (key row = id))).map set := by
  induction rows with
  | nil => rfl
  | cons row rest ih =>
    by_cases h : key row = id
    · simp [List.filter_cons, h, hset, ih]
    · simp [List.filter_cons, h, ih]

theorem map_update_of_absent {Row : Type} (key : Row → String) (set : Row → Row)
    (id : String) (rows : List Row) (h : ∀ row ∈ rows, key row ≠ id) :
    rows.map (fun row => if key row = id then set row else row) = rows := by
  induction rows with
  | nil => rfl
  | cons row rest ih =>
    have h1 : key row ≠ id := h row (List.mem_cons_self _ _)
    have h2 := ih (fun r hr => h r (List.mem_cons_of_mem _ hr))
    simp [h1, h2]

theorem forall₂_map_update {Row : Type} (key : Row → String) (set : Row → Row)
    (id : String) (rows : List Row) :
    List.Forall₂
      (fun old new => (key old = id → new = set old) ∧ (key old ≠ id → new = old))
      rows (rows.map (fun row => if key row = id then set row else row)) := by
  induction rows with
  | nil => exact List.Forall₂.nil
  | cons row rest ih =>
    refine List.Forall₂.cons ?_ ih
    by_cases h : key row = id <;> simp [h]

end UpdateTheorems

/-! ## Theorems: queries -/

section QueryTheorems

variable {Event Key : Type}

theorem parseSwap_no_error (ev : Events Event) (ks : Keys Key) (row : SwapRow)
    (h : (parseSwap ev ks row).2 = none) :
    ∃ swap, parseSwap ev ks row = (some swap, none) := by
  rcases h1 : Hex.DecodeString row.privateKey with ⟨b, _ | e⟩
  · by_cases hp : row.preimage = ""
    · simp only [parseSwap, h1, hp, ne_eq, not_true_eq_false, if_false] at h ⊢
      exact ⟨_, by rw [h]⟩
    · rcases h2 : Hex.DecodeString row.preimage with ⟨p, _ | e⟩
      · simp only [parseSwap, h1, hp, h2, ne_eq, not_false_eq_true, if_true] at h ⊢
        exact ⟨_, by rw [h]⟩
      · simp [parseSwap, h1, hp, h2] at h
  · simp [parseSwap, h1] at h

theorem querySwaps_loop_ok (ev : Events Event) (ks : Keys Key) (rows : List SwapRow) :
    ∀ acc : List (Swap Event Key), (∀ row ∈ rows, (parseSwap ev ks row).2 = none) →
      ∃ swaps, querySwaps.loop ev ks rows acc = (acc ++ swaps, none) ∧
        swaps.map some = rows.map (fun row => (parseSwap ev ks row).1) := by
  induction rows with
  | nil => intro acc _; exact ⟨[], by simp [querySwaps.loop], rfl⟩
  | cons row rest ih =>
    intro acc h
    obtain ⟨swap, hs⟩ := parseSwap_no_error ev ks row (h row (List.mem_cons_self _ _))
    obtain ⟨swaps, h1, h2⟩ := ih (acc ++ [swap]) (fun r hr => h r (List.mem_cons_of_mem _ hr))
    refine ⟨swap :: swaps, ?_, ?_⟩
    · simp only [querySwaps.loop, hs, h1, List.append_assoc, List.singleton_append]
    · simp only [List.map_cons, hs, h2]

theorem querySwaps_loop_error (ev : Events Event) (ks : Keys Key) (rows : List SwapRow) :
    ∀ acc : List (Swap Event Key), (∃ row ∈ rows, (parseSwap ev ks row).2 ≠ none) →
      (querySwaps.loop ev ks rows acc).1 = [] ∧ (querySwaps.loop ev ks rows acc).2 ≠ none := by
  induction rows with
  | nil => intro acc h; simp at h
  | cons row rest ih =>
    intro acc h
    rcases hp : parseSwap ev ks row with ⟨_ | swap, _ | err⟩
    · simp [querySwaps.loop, hp]
    · simp [querySwaps.loop, hp]
    · have hrest : ∃ r ∈ rest, (parseSwap ev ks r).2 ≠ none := by
        obtain ⟨r, hr, hne⟩ := h
        rcases List.mem_cons.1 hr with rfl | hr
        · simp [hp] at hne
        · exact ⟨r, hr, hne⟩
      simpa [querySwaps.loop, hp] using ih (acc ++ [swap]) hrest
    · simp [querySwaps.loop, hp]

theorem notInLiterals_of_ne_nil (names : List String) (h : names ≠ []) :
    notInLiterals names = names := by
  cases names with
  | nil => exact absurd rfl h
  | cons _ _ => rfl

theorem QueryRefundableSwaps_eq (ev : Events Event) (ks : Keys Key) (database : Database)
    (h : Nat) (hfault : database.fault = none) (hh : h < 2 ^ 32)
    (hc : ev.CompletedStatus ≠ []) :
    database.QueryRefundableSwaps ev ks h =
      querySwaps.loop ev ks (refundableRows ev database h) [] := by
  simp only [Database.QueryRefundableSwaps, Database.querySwaps, hfault, refundableRows,
    notInLiterals_of_ne_nil _ hc, Nat.mod_eq_of_lt hh]
  congr 1
  apply List.filter_congr
  intro row _
  by_cases h1 : row.status ∈ ev.CompletedStatus <;>
    by_cases h2 : row.timeoutBlockHeight ≤ (h : Int) <;> simp [h1, h2]

theorem mem_refundableRows (ev : Events Event) (database : Database) (h : Nat)
    (row : SwapRow) :
    row ∈ refundableRows ev database h ↔
      row ∈ database.swaps ∧ row.status ∉ ev.CompletedStatus ∧
        row.timeoutBlockHeight ≤ (h : Int) := by
  simp [refundableRows]

/-- C3. Refund eligibility is boundary-inclusive: on a working store, for a height `h` of
the `uint32` range, `QueryRefundableSwaps(h)` returns exactly the parsed rows of `swaps`
whose status is no completed status and whose timeout height is at most `h`, in store order
(and an error in place of them when one of those rows does not parse); every returned
record has a timeout height of at most `h`. So a row that is
not completed is selected exactly when its timeout height `H` is at most `h`: for `h = H`
and `h = H + 1`, not for `h = H - 1`; and a row with a completed status is selected for
no `h`. -/
theorem QueryRefundableSwaps_boundary (ev : Events Event) (ks : Keys Key)
    (database : Database) (h : Nat) (hfault : database.fault = none) (hh : h < 2 ^ 32)
    (hc : ev.CompletedStatus ≠ []) :
    (∀ row, row ∈ refundableRows ev database h ↔
      row ∈ database.swaps ∧ row.status ∉ ev.CompletedStatus ∧
        row.timeoutBlockHeight ≤ (h : Int)) ∧
    ((∀ row ∈ refundableRows ev database h, (parseSwap ev ks row).2 = none) →
      ∃ swaps : List (Swap Event Key),
        database.QueryRefundableSwaps ev ks h = (swaps, none) ∧
        swaps.map some =
          (refundableRows ev database h).map (fun row => (parseSwap ev ks row).1) ∧
        ∀ swap ∈ swaps, swap.TimoutBlockHeight ≤ (h : Int)) ∧
    ((∃ row ∈ refundableRows ev database h, (parseSwap ev ks row).2 ≠ none) →
      (database.QueryRefundableSwaps ev ks h).1 = [] ∧
      (database.QueryRefundableSwaps ev ks h).2 ≠ none) ∧
    (∀ row ∈ database.swaps, row.status ∉ ev.CompletedStatus → ∀ H : Nat,
      row.timeoutBlockHeight = (H : Int) →
        (h = H → row ∈ refundableRows ev database h) ∧
        (h = H + 1 → row ∈ refundableRows ev database h) ∧
        (h + 1 = H → row ∉ refundableRows ev database h)) ∧
    (∀ row ∈ database.swaps, row.status ∈ ev.CompletedStatus →
      row ∉ refundableRows ev database h) := by
  refine ⟨mem_refundableRows ev database h, ?_, ?_, ?_, ?_⟩
  · intro hall
    rw [QueryRefundableSwaps_eq ev ks database h hfault hh hc]
    obtain ⟨swaps, h1, h2⟩ := querySwaps_loop_ok ev ks (refundableRows ev database h) [] hall
    refine ⟨swaps, by simpa using h1, h2, ?_⟩
    intro swap hswap
    have hmem : some swap ∈ swaps.map some := List.mem_map_of_mem _ hswap
    rw [h2, List.mem_map] at hmem
    obtain ⟨row, hrow, hparse⟩ := hmem
    have hfields := parseSwap_fields ev ks row swap (parseSwap ev ks row).2
      (by rw [← hparse])
    rw [hfields.2.2.1]
    exact ((mem_refundableRows ev database h row).1 hrow).2.2
  · intro hex
    rw [QueryRefundableSwaps_eq ev ks database h hfault hh hc]
    exact querySwaps_loop_error ev ks _ [] hex
  · intro row hrow hs H hH
    simp only [mem_refundableRows, hrow, hs, not_false_eq_true, true_and, hH]
    refine ⟨?_, ?_, ?_⟩ <;> intro hx <;> omega
  · intro row _ hs
    simp [mem_refundableRows, hs]

/-- The refund query on the sample store, at the timeout height of its swap. -/
theorem QueryRefundableSwaps_boundary_witness :
    ∃ swaps : List (Swap String (List UInt8)),
      Sample.database.QueryRefundableSwaps Sample.events Sample.keys 650000 = (swaps, none) ∧
      swaps.map some =
        (refundableRows Sample.events Sample.database 650000).map
          (fun row => (parseSwap Sample.events Sample.keys row).1) ∧
      ∀ swap ∈ swaps, swap.TimoutBlockHeight ≤ 650000 :=
  (QueryRefundableSwaps_boundary Sample.events Sample.keys Sample.database 650000
    rfl (by decide) (by decide)).2.1 (by decide)

end QueryTheorems

/-! ## Theorems: the claims about field updates -/

section UpdateClaims

variable {Event Key : Type}

theorem execUpdateSwaps_framed (database : Database) (set : SwapRow → SwapRow) (id : String) :
    (database.fault = none →
      (database.execUpdateSwaps set id).2 = none ∧
      SwapsUpdated id set database (database.execUpdateSwaps set id).1) ∧
    (∀ e, database.fault = some e →
      (database.execUpdateSwaps set id).2 = some (Error.Storage e) ∧
      (database.execUpdateSwaps set id).1 = database) := by
  constructor
  · intro hf
    simp only [Database.execUpdateSwaps, hf, SwapsUpdated, and_true, true_and]
    exact forall₂_map_update SwapRow.id set id database.swaps
  · intro e hf
    simp [Database.execUpdateSwaps, hf]

theorem execUpdateReverseSwaps_framed (database : Database)
    (set : ReverseSwapRow → ReverseSwapRow) (id : String) :
    (database.fault = none →
      (database.execUpdateReverseSwaps set id).2 = none ∧
      ReverseSwapsUpdated id set database (database.execUpdateReverseSwaps set id).1) ∧
    (∀ e, database.fault = some e →
      (database.execUpdateReverseSwaps set id).2 = some (Error.Storage e) ∧
      (database.execUpdateReverseSwaps set id).1 = database) := by
  constructor
  · intro hf
    simp only [Database.execUpdateReverseSwaps, hf, ReverseSwapsUpdated, and_true, true_and]
    exact forall₂_map_update ReverseSwapRow.id set id database.reverseSwaps
  · intro e hf
    simp [Database.execUpdateReverseSwaps, hf]

/-- C6. Frame of the field updates: on a working backend each field update returns no
error and leaves the table of its record with the same rows in the same order, where every
row of the record's id is the old row with exactly the targeted column(s) set (status;
invoice; lockup transaction id; claim transaction id; refund transaction id together with
status) and every other row, the other table and the backend are unchanged; on a failing
backend it returns the backend's error and changes nothing. -/
theorem field_updates_frame (ev : Events Event) (database : Database)
    (swap : Swap Event Key) (reverseSwap : ReverseSwap Event Key) (status : Event)
    (value : String) :
    (database.UpdateSwapStatus ev swap status).Framed database
      (SwapsUpdated swap.Id fun row => { row with status := ev.eventString status }) ∧
    (database.SetSwapInvoice swap value).Framed database
      (SwapsUpdated swap.Id fun row => { row with invoice := value }) ∧
    (database.SetSwapLockupTransactionId swap value).Framed database
      (SwapsUpdated swap.Id fun row => { row with lockupTransactionId := value }) ∧
    (database.SetSwapRefundTransactionId ev swap value).Framed database
      (SwapsUpdated swap.Id fun row =>
        { row with status := ev.eventString ev.SwapRefunded, refundTransactionId := value }) ∧
    (database.UpdateReverseSwapStatus ev reverseSwap status).Framed database
      (ReverseSwapsUpdated reverseSwap.Id fun row =>
        { row with status := ev.eventString status }) ∧
    (database.SetReverseSwapLockupTransactionId reverseSwap value).Framed database
      (ReverseSwapsUpdated reverseSwap.Id fun row =>
        { row with lockupTransactionId := value }) ∧
    (database.SetReverseSwapClaimTransactionId reverseSwap value).Framed database
      (ReverseSwapsUpdated reverseSwap.Id fun row =>
        { row with claimTransactionId := value }) :=
  ⟨execUpdateSwaps_framed database _ swap.Id,
   execUpdateSwaps_framed database _ swap.Id,
   execUpdateSwaps_framed database _ swap.Id,
   execUpdateSwaps_framed database _ swap.Id,
   execUpdateReverseSwaps_framed database _ reverseSwap.Id,
   execUpdateReverseSwaps_framed database _ reverseSwap.Id,
   execUpdateReverseSwaps_framed database _ reverseSwap.Id⟩

/-- The status update on the sample store: no error, the one row of the sample swap has the
new status, and nothing else changed. -/
theorem field_updates_frame_sample :
    (Sample.database.UpdateSwapStatus Sample.events Sample.swap "invoice.set").err = none ∧
    (Sample.database.UpdateSwapStatus Sample.events Sample.swap "invoice.set").database =
      { Sample.database with
        swaps := [{ CreateSwap.values Sample.events Sample.keys Sample.swap with
          status := "invoice.set" }] } := by
  decide

end UpdateClaims

section RefundClaims

variable {Event Key : Type}

theorem QuerySwap.statement_data (id : String) :
    (QuerySwap.statement id).data =
      "SELECT * FROM swaps WHERE id = '".data ++ id.data ++ ['\''] := by
  simp [QuerySwap.statement, String.data_append]

/-- The sample engine reads the statement of `QuerySwap` as an SQL engine does. -/
theorem Sample.sql_ReadsIdLiteral : ReadsIdLiteral Sample.sql := by
  intro id hid
  have hdrop : ((QuerySwap.statement id).data.drop
      "SELECT * FROM swaps WHERE id = '".data.length).dropLast = id.data := by
    rw [QuerySwap.statement_data, List.append_assoc, List.drop_left,
      List.dropLast_concat]
  simp only [Sample.sql, hdrop]
  rw [if_pos ⟨QuerySwap.statement_data id, hid.1⟩]

theorem QuerySwap_eq (ev : Events Event) (ks : Keys Key)
    (sql : String → Option (SwapRow → Bool)) (hsql : ReadsIdLiteral sql)
    (database : Database) (id : String) (hquote : QuerySwap.plainId id)
    (hf : database.fault = none) :
    database.QuerySwap ev ks sql id =
      match database.swaps.filter (fun row => decide (row.id = id)) with
      | row :: _ => parseSwap ev ks row
      | [] => (none, some (Error.New ("could not find Swap " ++ id))) := by
  simp only [Database.QuerySwap, hf, hsql id hquote]

theorem SetSwapRefundTransactionId_swaps (ev : Events Event) (database : Database)
    (swap : Swap Event Key) (t : String)
    (herr : (database.SetSwapRefundTransactionId ev swap t).err = none) :
    database.fault = none ∧
    (database.SetSwapRefundTransactionId ev swap t).database.fault = none ∧
    (database.SetSwapRefundTransactionId ev swap t).database.swaps =
      database.swaps.map (fun row => if row.id = swap.Id then
        { row with status := ev.eventString ev.SwapRefunded, refundTransactionId := t }
        else row) := by
  rcases hf : database.fault with _ | e
  · simp [Database.SetSwapRefundTransactionId, Database.execUpdateSwaps, hf]
  · simp [Database.SetSwapRefundTransactionId, Database.execUpdateSwaps, hf] at herr

/-- C4. Refund id and status are written together. The SQL engine reads a plain id between
quotes as that string; the swap's id is plain (no quote, no NUL character) and has a row
in the store; `SetSwapRefundTransactionId(swap, t)` returns no error. Then
afterwards the store still holds a row of that id; every row of that id holds both the
refund transaction id `t` and the name of the refunded status; `QuerySwap` by that id
finds such a row and returns its parse; every record it returns has
`RefundTransactionId = t` and `Status = SwapRefunded`; and a swap that could be read
before the update is read back after it with exactly these two fields set. -/
theorem SetSwapRefundTransactionId_atomic (ev : Events Event) (ks : Keys Key)
    (sql : String → Option (SwapRow → Bool)) (hsql : ReadsIdLiteral sql)
    (hev : ev.ParseEvent (ev.eventString ev.SwapRefunded) = ev.SwapRefunded)
    (database : Database) (swap : Swap Event Key) (t : String)
    (hquote : QuerySwap.plainId swap.Id)
    (hrow : ∃ row ∈ database.swaps, row.id = swap.Id)
    (herr : (database.SetSwapRefundTransactionId ev swap t).err = none) :
    (∃ row ∈ (database.SetSwapRefundTransactionId ev swap t).database.swaps,
      row.id = swap.Id) ∧
    (∀ row ∈ (database.SetSwapRefundTransactionId ev swap t).database.swaps,
      row.id = swap.Id →
        row.refundTransactionId = t ∧ row.status = ev.eventString ev.SwapRefunded) ∧
    (∃ row ∈ (database.SetSwapRefundTransactionId ev swap t).database.swaps,
      row.id = swap.Id ∧ row.refundTransactionId = t ∧
      row.status = ev.eventString ev.SwapRefunded ∧
      (database.SetSwapRefundTransactionId ev swap t).database.QuerySwap ev ks sql swap.Id =
        parseSwap ev ks row) ∧
    (∀ (read : Swap Event Key) (e : Option Error),
      (database.SetSwapRefundTransactionId ev swap t).database.QuerySwap ev ks sql swap.Id =
          (some read, e) →
        read.RefundTransactionId = t ∧ read.Status = ev.SwapRefunded) ∧
    (∀ before : Swap Event Key,
      database.QuerySwap ev ks sql swap.Id = (some before, none) →
      (database.SetSwapRefundTransactionId ev swap t).database.QuerySwap ev ks sql swap.Id =
        (some { before with Status := ev.SwapRefunded, RefundTransactionId := t }, none)) := by
  obtain ⟨hf, hf', hswaps⟩ := SetSwapRefundTransactionId_swaps ev database swap t herr
  have hfilter := filter_id_map_update SwapRow.id
    (fun row => { row with status := ev.eventString ev.SwapRefunded, refundTransactionId := t })
    (fun _ => rfl) swap.Id database.swaps
  have hall : ∀ row ∈ (database.SetSwapRefundTransactionId ev swap t).database.swaps,
      row.id = swap.Id →
        row.refundTransactionId = t ∧ row.status = ev.eventString ev.SwapRefunded := by
    intro row hmem hid
    rw [hswaps, List.mem_map] at hmem
    obtain ⟨old, _, rfl⟩ := hmem
    by_cases h : old.id = swap.Id
    · simp [h]
    · simp [h] at hid
  have hfound : ∃ row rest,
      (database.SetSwapRefundTransactionId ev swap t).database.swaps.filter
        (fun row => decide (row.id = swap.Id)) = row :: rest := by
    obtain ⟨row, hmem, hid⟩ := hrow
    have hin : row ∈ database.swaps.filter (fun row => decide (row.id = swap.Id)) :=
      List.mem_filter.2 ⟨hmem, by simpa using hid⟩
    rw [hswaps, hfilter]
    cases hl : database.swaps.filter (fun row => decide (row.id = swap.Id)) with
    | nil => rw [hl] at hin; simp at hin
    | cons first rest => exact ⟨_, _, rfl⟩
  obtain ⟨first, rest, hfirst⟩ := hfound
  have hfirstmem : first ∈ (database.SetSwapRefundTransactionId ev swap t).database.swaps ∧
      first.id = swap.Id := by
    have hin : first ∈ (database.SetSwapRefundTransactionId ev swap t).database.swaps.filter
        (fun row => decide (row.id = swap.Id)) := by
      rw [hfirst]; exact List.mem_cons_self _ _
    rw [List.mem_filter] at hin
    exact ⟨hin.1, by simpa using hin.2⟩
  have hquery : (database.SetSwapRefundTransactionId ev swap t).database.QuerySwap ev ks sql
      swap.Id = parseSwap ev ks first := by
    rw [QuerySwap_eq ev ks sql hsql _ swap.Id hquote hf', hfirst]
  obtain ⟨hrefund, hstatus⟩ := hall first hfirstmem.1 hfirstmem.2
  refine ⟨⟨first, hfirstmem.1, hfirstmem.2⟩, hall,
    ⟨first, hfirstmem.1, hfirstmem.2, hrefund, hstatus, hquery⟩, ?_, ?_⟩
  · intro read e hq
    rw [hquery] at hq
    obtain ⟨_, h2, _, _, h5, _⟩ := parseSwap_fields ev ks first read e hq
    exact ⟨h5.trans hrefund, by rw [h2, hstatus, hev]⟩
  · intro before hq
    rw [QuerySwap_eq ev ks sql hsql _ swap.Id hquote hf] at hq
    rw [QuerySwap_eq ev ks sql hsql _ swap.Id hquote hf', hswaps, hfilter]
    split at hq
    · rename_i row others hrows
      simp only [hrows, List.map_cons]
      rw [parseSwap_update ev ks row _ _ before hq, hev]
    · simp at hq

/-- The refund update on the sample store, read back. -/
theorem SetSwapRefundTransactionId_atomic_witness :
    (Sample.database.SetSwapRefundTransactionId Sample.events Sample.swap
        "4f0c").database.QuerySwap Sample.events Sample.keys Sample.sql Sample.swap.Id =
      (some { Sample.swap with
          Status := "swap.refunded"
          RefundTransactionId := "4f0c" }, none) :=
  (SetSwapRefundTransactionId_atomic Sample.events Sample.keys Sample.sql
    Sample.sql_ReadsIdLiteral rfl Sample.database
    Sample.swap "4f0c" (by decide) (by decide) rfl).2.2.2.2
    Sample.swap (by decide)

end RefundClaims

section AbsentIdClaims

variable {Event Key : Type}

theorem execUpdateSwaps_absent (database : Database) (set : SwapRow → SwapRow) (id : String)
    (h : ∀ row ∈ database.swaps, row.id ≠ id) :
    database.execUpdateSwaps set id = (database, database.fault.map Error.Storage) := by
  rcases hf : database.fault with _ | e
  · simp only [Database.execUpdateSwaps, hf, Option.map_none',
      map_update_of_absent SwapRow.id set id database.swaps h]
    rw [← hf]
  · simp [Database.execUpdateSwaps, hf]

theorem execUpdateReverseSwaps_absent (database : Database)
    (set : ReverseSwapRow → ReverseSwapRow) (id : String)
    (h : ∀ row ∈ database.reverseSwaps, row.id ≠ id) :
    database.execUpdateReverseSwaps set id =
      (database, database.fault.map Error.Storage) := by
  rcases hf : database.fault with _ | e
  · simp only [Database.execUpdateReverseSwaps, hf, Option.map_none',
      map_update_of_absent ReverseSwapRow.id set id database.reverseSwaps h]
    rw [← hf]
  · simp [Database.execUpdateReverseSwaps, hf]

/-- C5, as the code has it. When the store holds no row with the id of the record, every
field update leaves the store as it was and returns what the backend returns for a
statement that matches no row: no error on a working backend, the backend's own error
otherwise. No update looks for the row or reports that it is missing. -/
theorem field_updates_absent_id (ev : Events Event) (database : Database)
    (swap : Swap Event Key) (reverseSwap : ReverseSwap Event Key) (status : Event)
    (value : String)
    (hswap : ∀ row ∈ database.swaps, row.id ≠ swap.Id)
    (hreverse : ∀ row ∈ database.reverseSwaps, row.id ≠ reverseSwap.Id) :
    ((database.UpdateSwapStatus ev swap status).database = database ∧
      (database.UpdateSwapStatus ev swap status).err = database.fault.map Error.Storage) ∧
    ((database.SetSwapInvoice swap value).database = database ∧
      (database.SetSwapInvoice swap value).err = database.fault.map Error.Storage) ∧
    ((database.SetSwapLockupTransactionId swap value).database = database ∧
      (database.SetSwapLockupTransactionId swap value).err =
        database.fault.map Error.Storage) ∧
    ((database.SetSwapRefundTransactionId ev swap value).database = database ∧
      (database.SetSwapRefundTransactionId ev swap value).err =
        database.fault.map Error.Storage) ∧
    ((database.UpdateReverseSwapStatus ev reverseSwap status).database = database ∧
      (database.UpdateReverseSwapStatus ev reverseSwap status).err =
        database.fault.map Error.Storage) ∧
    ((database.SetReverseSwapLockupTransactionId reverseSwap value).database = database ∧
      (database.SetReverseSwapLockupTransactionId reverseSwap value).err =
        database.fault.map Error.Storage) ∧
    ((database.SetReverseSwapClaimTransactionId reverseSwap value).database = database ∧
      (database.SetReverseSwapClaimTransactionId reverseSwap value).err =
        database.fault.map Error.Storage) := by
  simp only [Database.UpdateSwapStatus, Database.SetSwapInvoice,
    Database.SetSwapLockupTransactionId, Database.SetSwapRefundTransactionId,
    Database.UpdateReverseSwapStatus, Database.SetReverseSwapLockupTransactionId,
    Database.SetReverseSwapClaimTransactionId,
    execUpdateSwaps_absent database _ swap.Id hswap,
    execUpdateReverseSwaps_absent database _ reverseSwap.Id hreverse, and_self]

/-- The field updates on a store without rows: nothing changes and no error comes back. -/
theorem field_updates_absent_id_witness :
    (Sample.emptyDatabase.UpdateSwapStatus Sample.events Sample.swap
        "swap.expired").database = Sample.emptyDatabase ∧
    (Sample.emptyDatabase.UpdateSwapStatus Sample.events Sample.swap "swap.expired").err =
      none :=
  (field_updates_absent_id Sample.events Sample.emptyDatabase Sample.swap Sample.reverseSwap
    "swap.expired" "4f0c" (by decide) (by decide)).1

/-- C5 fails as stated: the store without rows holds no row with the id of the sample swap
or of the sample reverse swap, and each of the seven field updates returns no error
there. -/
theorem field_updates_absent_id_no_error :
    (∀ row ∈ Sample.emptyDatabase.swaps, row.id ≠ Sample.swap.Id) ∧
    (∀ row ∈ Sample.emptyDatabase.reverseSwaps, row.id ≠ Sample.reverseSwap.Id) ∧
    (Sample.emptyDatabase.UpdateSwapStatus Sample.events Sample.swap "swap.expired").err =
      none ∧
    (Sample.emptyDatabase.SetSwapInvoice Sample.swap "lnbc3").err = none ∧
    (Sample.emptyDatabase.SetSwapLockupTransactionId Sample.swap "4f0c").err = none ∧
    (Sample.emptyDatabase.SetSwapRefundTransactionId Sample.events Sample.swap "4f0c").err =
      none ∧
    (Sample.emptyDatabase.UpdateReverseSwapStatus Sample.events Sample.reverseSwap
      "swap.expired").err = none ∧
    (Sample.emptyDatabase.SetReverseSwapLockupTransactionId Sample.reverseSwap "4f0c").err =
      none ∧
    (Sample.emptyDatabase.SetReverseSwapClaimTransactionId Sample.reverseSwap "4f0c").err =
      none := by
  decide

end AbsentIdClaims


/-! ## Theorems: rows with a column that is no hex string -/

section DecodeFailures

variable {Event Key : Type}

/-- A private key or preimage column that is no hex string: `parseSwap` and
`parseReverseSwap` return the decode error and no record. -/
theorem parse_bad_key_or_preimage (ev : Events Event) (ks : Keys Key) (row : SwapRow)
    (reverseRow : ReverseSwapRow) :
    ((Hex.DecodeString row.privateKey).2 ≠ none →
      parseSwap ev ks row = (none, (Hex.DecodeString row.privateKey).2)) ∧
    ((Hex.DecodeString row.privateKey).2 = none → row.preimage ≠ "" →
      (Hex.DecodeString row.preimage).2 ≠ none →
      parseSwap ev ks row = (none, (Hex.DecodeString row.preimage).2)) ∧
    ((Hex.DecodeString reverseRow.privateKey).2 ≠ none →
      parseReverseSwap ev ks reverseRow =
        (none, (Hex.DecodeString reverseRow.privateKey).2)) ∧
    ((Hex.DecodeString reverseRow.privateKey).2 = none →
      (Hex.DecodeString reverseRow.preimage).2 ≠ none →
      parseReverseSwap ev ks reverseRow =
        (none, (Hex.DecodeString reverseRow.preimage).2)) := by
  refine ⟨?_, ?_, ?_, ?_⟩
  · intro h
    rcases h1 : Hex.DecodeString row.privateKey with ⟨b, _ | e⟩
    · simp [h1] at h
    · simp [parseSwap, h1]
  · intro h hp h'
    rcases h1 : Hex.DecodeString row.privateKey with ⟨b, _ | e⟩
    · rcases h2 : Hex.DecodeString row.preimage with ⟨p, _ | e⟩
      · simp [h2] at h'
      · simp [parseSwap, h1, h2, hp]
    · simp [h1] at h
  · intro h
    rcases h1 : Hex.DecodeString reverseRow.privateKey with ⟨b, _ | e⟩
    · simp [h1] at h
    · simp [parseReverseSwap, h1]
  · intro h h'
    rcases h1 : Hex.DecodeString reverseRow.privateKey with ⟨b, _ | e⟩
    · rcases h2 : Hex.DecodeString reverseRow.preimage with ⟨p, _ | e⟩
      · simp [h2] at h'
      · simp [parseReverseSwap, h1, h2]
    · simp [h1] at h

end DecodeFailures

/-- C9, at a row whose redeem script column is `zz` and whose other columns are those of
the sample record: `parseSwap`, `QuerySwap`, `parseReverseSwap` and `QueryReverseSwap`
return the decode error together with a record, filled from the other columns and holding
an empty redeem script. -/
theorem parse_bad_redeemScript :
    parseSwap Sample.events Sample.keys Sample.badRedeemScriptRow =
      (some { Sample.swap with RedeemScript := some [] }, some (Error.InvalidByte 'z')) ∧
    Database.QuerySwap Sample.events Sample.keys Sample.sql
        { swaps := [Sample.badRedeemScriptRow], reverseSwaps := [], fault := none }
        Sample.swap.Id =
      (some { Sample.swap with RedeemScript := some [] }, some (Error.InvalidByte 'z')) ∧
    parseReverseSwap Sample.events Sample.keys Sample.badRedeemScriptReverseRow =
      (some { Sample.reverseSwap with RedeemScript := some [] },
        some (Error.InvalidByte 'z')) ∧
    Database.QueryReverseSwap Sample.events Sample.keys
        { swaps := [], reverseSwaps := [Sample.badRedeemScriptReverseRow], fault := none }
        Sample.reverseSwap.Id =
      (some { Sample.reverseSwap with RedeemScript := some [] },
        some (Error.InvalidByte 'z')) := by
  decide

section InMemoryClaims

variable {Event Key : Type}

/-- C10. `SetSwapRefundTransactionId` changes exactly one field of the record it is given,
`RefundTransactionId`: its `Status` and every other field stay, while on a working backend
the statement returns no error and sets, in every stored row of that id, the status column
to the name of the refunded status and the refund transaction id column to the id
assigned. Every other update assigns to the record the value whose column it writes: the
record is the old record with that one field set, and on a working backend the statement
returns no error and sets, in every stored row of that id, that column to the value now
in the record (for a status, its name); all other rows and columns stay. -/
theorem updates_in_memory (ev : Events Event) (database : Database)
    (swap : Swap Event Key) (reverseSwap : ReverseSwap Event Key) (status : Event)
    (value : String) :
    ((database.SetSwapRefundTransactionId ev swap value).record =
        { swap with RefundTransactionId := value } ∧
      (database.SetSwapRefundTransactionId ev swap value).record.Status = swap.Status ∧
      (database.fault = none →
        (database.SetSwapRefundTransactionId ev swap value).err = none ∧
        SwapsUpdated swap.Id
          (fun row => { row with
            status := ev.eventString ev.SwapRefunded
            refundTransactionId :=
              (database.SetSwapRefundTransactionId ev swap value).record.RefundTransactionId })
          database (database.SetSwapRefundTransactionId ev swap value).database)) ∧
    ((database.UpdateSwapStatus ev swap status).record = { swap with Status := status } ∧
      (database.fault = none →
        (database.UpdateSwapStatus ev swap status).err = none ∧
        SwapsUpdated swap.Id
          (fun row => { row with
            status := ev.eventString (database.UpdateSwapStatus ev swap status).record.Status })
          database (database.UpdateSwapStatus ev swap status).database)) ∧
    ((database.SetSwapInvoice swap value).record = { swap with Invoice := value } ∧
      (database.fault = none →
        (database.SetSwapInvoice swap value).err = none ∧
        SwapsUpdated swap.Id
          (fun row => { row with
            invoice := (database.SetSwapInvoice swap value).record.Invoice })
          database (database.SetSwapInvoice swap value).database)) ∧
    ((database.SetSwapLockupTransactionId swap value).record =
        { swap with LockupTransactionId := value } ∧
      (database.fault = none →
        (database.SetSwapLockupTransactionId swap value).err = none ∧
        SwapsUpdated swap.Id
          (fun row => { row with
            lockupTransactionId :=
              (database.SetSwapLockupTransactionId swap value).record.LockupTransactionId })
          database (database.SetSwapLockupTransactionId swap value).database)) ∧
    ((database.UpdateReverseSwapStatus ev reverseSwap status).record =
        { reverseSwap with Status := status } ∧
      (database.fault = none →
        (database.UpdateReverseSwapStatus ev reverseSwap status).err = none ∧
        ReverseSwapsUpdated reverseSwap.Id
          (fun row => { row with
            status := ev.eventString
              (database.UpdateReverseSwapStatus ev reverseSwap status).record.Status })
          database (database.UpdateReverseSwapStatus ev reverseSwap status).database)) ∧
    ((database.SetReverseSwapLockupTransactionId reverseSwap value).record =
        { reverseSwap with LockupTransactionId := value } ∧
      (database.fault = none →
        (database.SetReverseSwapLockupTransactionId reverseSwap value).err = none ∧
        ReverseSwapsUpdated reverseSwap.Id
          (fun row => { row with
            lockupTransactionId :=
              (database.SetReverseSwapLockupTransactionId reverseSwap
                value).record.LockupTransactionId })
          database (database.SetReverseSwapLockupTransactionId reverseSwap value).database)) ∧
    ((database.SetReverseSwapClaimTransactionId reverseSwap value).record =
        { reverseSwap with ClaimTransactionId := value } ∧
      (database.fault = none →
        (database.SetReverseSwapClaimTransactionId reverseSwap value).err = none ∧
        ReverseSwapsUpdated reverseSwap.Id
          (fun row => { row with
            claimTransactionId :=
              (database.SetReverseSwapClaimTransactionId reverseSwap
                value).record.ClaimTransactionId })
          database (database.SetReverseSwapClaimTransactionId reverseSwap value).database)) :=
  ⟨⟨rfl, rfl, (execUpdateSwaps_framed database _ swap.Id).1⟩,
   ⟨rfl, (execUpdateSwaps_framed database _ swap.Id).1⟩,
   ⟨rfl, (execUpdateSwaps_framed database _ swap.Id).1⟩,
   ⟨rfl, (execUpdateSwaps_framed database _ swap.Id).1⟩,
   ⟨rfl, (execUpdateReverseSwaps_framed database _ reverseSwap.Id).1⟩,
   ⟨rfl, (execUpdateReverseSwaps_framed database _ reverseSwap.Id).1⟩,
   ⟨rfl, (execUpdateReverseSwaps_framed database _ reverseSwap.Id).1⟩⟩

/-- The refund update on the sample store: no error; the record keeps its status and gets
the refund transaction id; the stored row gets both the refunded status and the id. -/
theorem updates_in_memory_sample :
    (Sample.database.SetSwapRefundTransactionId Sample.events Sample.swap "4f0c").err = none ∧
    (Sample.database.SetSwapRefundTransactionId Sample.events Sample.swap "4f0c").record =
      { Sample.swap with RefundTransactionId := "4f0c" } ∧
    (Sample.database.SetSwapRefundTransactionId Sample.events Sample.swap
        "4f0c").record.Status = "swap.created" ∧
    (Sample.database.SetSwapRefundTransactionId Sample.events Sample.swap
        "4f0c").database.swaps =
      [{ CreateSwap.values Sample.events Sample.keys Sample.swap with
          status := "swap.refunded", refundTransactionId := "4f0c" }] := by
  decide

end InMemoryClaims

/-! ## Theorems: digests and text encodings -/

namespace Crypto

theorem SHA256.Sum256_length (msg : List UInt8) : (SHA256.Sum256 msg).length = 32 := by
  simp [SHA256.Sum256, bytesBE]

theorem RIPEMD160.Sum_length (msg : List UInt8) : (RIPEMD160.Sum msg).length = 20 := by
  simp [RIPEMD160.Sum, bytesLE]

theorem Hash160_length (msg : List UInt8) : (Hash160 msg).length = 20 :=
  RIPEMD160.Sum_length _

namespace Base58

theorem digits_length_le (fuel n : Nat) : (digits fuel n).length ≤ fuel := by
  induction fuel generalizing n with
  | zero => simp [digits]
  | succ fuel ih =>
    unfold digits
    split
    · simp
    · simpa using ih (n / 58)

theorem digits_ne_nil (fuel n : Nat) (hf : 0 < fuel) (hn : n ≠ 0) : digits fuel n ≠ [] := by
  cases fuel with
  | zero => omega
  | succ fuel => simp [digits, hn]

/-- With enough fuel the digits are those of the number in base 58. -/
theorem digits_eq (fuel n : Nat) (h : n < 58 ^ fuel) : digits fuel n = Nat.digits 58 n := by
  induction fuel generalizing n with
  | zero =>
    have : n = 0 := by simpa using h
    subst this
    simp [digits]
  | succ fuel ih =>
    unfold digits
    by_cases hn : n = 0
    · simp [hn]
    · have hlt : n / 58 < 58 ^ fuel := by
        rw [Nat.div_lt_iff_lt_mul (by norm_num)]
        rw [pow_succ] at h
        exact h
      rw [if_neg hn, ih _ hlt]
      exact (Nat.digits_def' (by norm_num) (Nat.pos_of_ne_zero hn)).symm

theorem foldl_lt (bytes : List UInt8) (acc : Nat) :
    bytes.foldl (fun acc b => acc * 256 + b.toNat) acc < (acc + 1) * 256 ^ bytes.length := by
  induction bytes generalizing acc with
  | nil => simp
  | cons b rest ih =>
    have hb : b.toNat < 256 := b.val.isLt
    have h := ih (acc * 256 + b.toNat)
    simp only [List.foldl_cons, List.length_cons, pow_succ]
    calc List.foldl (fun acc b => acc * 256 + b.toNat) (acc * 256 + b.toNat) rest
        < (acc * 256 + b.toNat + 1) * 256 ^ rest.length := h
      _ ≤ ((acc + 1) * 256) * 256 ^ rest.length := by
          apply Nat.mul_le_mul_right
          omega
      _ = (acc + 1) * (256 ^ rest.length * 256) := by ring

theorem toNat_lt (bytes : List UInt8) : toNat bytes < 58 ^ (2 * bytes.length) := by
  have h := foldl_lt bytes 0
  simp only [zero_add, one_mul] at h
  calc toNat bytes < 256 ^ bytes.length := h
    _ ≤ (58 ^ 2) ^ bytes.length := Nat.pow_le_pow_left (by norm_num) _
    _ = 58 ^ (2 * bytes.length) := by rw [pow_mul]

theorem foldl_ge (bytes : List UInt8) (acc : Nat) :
    acc ≤ bytes.foldl (fun acc b => acc * 256 + b.toNat) acc := by
  induction bytes generalizing acc with
  | nil => simp
  | cons b rest ih =>
    simp only [List.foldl_cons]
    exact le_trans (by omega) (ih (acc * 256 + b.toNat))

theorem toNat_pos (b : UInt8) (rest : List UInt8) (hb : b ≠ 0) : toNat (b :: rest) ≠ 0 := by
  have hpos : 0 < b.toNat := by
    revert hb
    rcases b with ⟨v⟩
    revert v
    decide
  have := foldl_ge rest (0 * 256 + b.toNat)
  simp only [toNat, List.foldl_cons]
  omega

theorem Encode_length_le (bytes : List UInt8) : (Encode bytes).length ≤ 2 * bytes.length := by
  have hsplit : (bytes.takeWhile (· == 0)).length + (bytes.dropWhile (· == 0)).length =
      bytes.length := by
    rw [← List.length_append, List.takeWhile_append_dropWhile]
  have hd := digits_length_le (2 * (bytes.dropWhile (· == 0)).length)
    (toNat (bytes.dropWhile (· == 0)))
  simp only [Encode, String.length_mk, List.length_append, List.length_replicate,
    List.length_map, List.length_reverse]
  omega

theorem Encode_ne_empty (bytes : List UInt8) (h : bytes ≠ []) : Encode bytes ≠ "" := by
  intro hc
  have hdata := congrArg String.data hc
  simp only [Encode, List.append_eq_nil, List.replicate_eq_nil_iff, List.length_eq_zero,
    List.map_eq_nil_iff, List.reverse_eq_nil_iff] at hdata
  obtain ⟨hz, hd⟩ := hdata
  cases bytes with
  | nil => exact h rfl
  | cons b rest =>
    by_cases hb : b = 0
    · simp [List.takeWhile_cons, hb] at hz
    · have hdrop : (b :: rest).dropWhile (· == 0) = b :: rest := by
        simp [List.dropWhile_cons, hb]
      rw [hdrop] at hd
      exact digits_ne_nil _ _ (by simp) (toNat_pos b rest hb) hd

theorem CheckEncode_length_le (input : List UInt8) (version : UInt8) :
    (CheckEncode input version).length ≤ 2 * (input.length + 5) := by
  have h := Encode_length_le
    (version :: input ++ (SHA256.Sum256 (SHA256.Sum256 (version :: input))).take 4)
  have h4 : ((SHA256.Sum256 (SHA256.Sum256 (version :: input))).take 4).length ≤ 4 := by
    simp
  simp only [List.length_append, List.length_cons] at h
  simp only [CheckEncode]
  omega

theorem CheckEncode_ne_empty (input : List UInt8) (version : UInt8) :
    CheckEncode input version ≠ "" :=
  Encode_ne_empty _ (by simp)

end Base58

namespace Bech32

theorem toBase32_length (bytes : List UInt8) (acc bits : Nat) (h : bits ≤ 4) :
    (toBase32 bytes acc bits).length = (bits + 8 * bytes.length + 4) / 5 := by
  induction bytes generalizing acc bits with
  | nil =>
    simp only [toBase32, List.length_nil]
    split <;> simp <;> omega
  | cons b rest ih =>
    simp only [toBase32, List.length_cons]
    split
    · rw [List.length_cons, List.length_cons, ih _ _ (by omega)]
      omega
    · rw [List.length_cons, ih _ _ (by omega)]
      omega

theorem Encode_length (hrp : String) (data : List Nat) :
    (Encode hrp data).length = hrp.length + data.length + 7 := by
  simp only [Encode, createChecksum, String.length, List.length_append, List.length_map,
    List.length_range, List.length_cons, List.length_nil]
  omega

theorem Encode_hrp_ne_empty (hrp : String) (data : List Nat) : Encode hrp data ≠ "" := by
  intro hc
  have h := congrArg String.length hc
  rw [Encode_length] at h
  simp at h

end Bech32

end Crypto

/-! ## Theorems: address derivation and `CheckSwapAddress` -/

/-- The fuel of `Base58.Encode` is enough: its digits are those of the number in base 58. -/
theorem Crypto.Base58.Encode_digits (bytes : List UInt8) :
    Crypto.Base58.digits (2 * bytes.length) (Crypto.Base58.toNat bytes) =
      Nat.digits 58 (Crypto.Base58.toNat bytes) :=
  Crypto.Base58.digits_eq _ _ (Crypto.Base58.toNat_lt bytes)

theorem WitnessScriptHashAddress_ok (chainParams : Params) (redeemScript : Bytes)
    (address : String)
    (h : WitnessScriptHashAddress chainParams redeemScript = (address, none)) :
    address = Crypto.Bech32.Encode chainParams.Bech32HRPSegwit
      (0 :: Crypto.Bech32.toBase32 (Crypto.SHA256.Sum256 redeemScript.data) 0 0) := by
  unfold WitnessScriptHashAddress at h
  split at h
  · exact (congrArg Prod.fst h).symm
  · simp at h

theorem WitnessScriptHashAddress_length (chainParams : Params) (redeemScript : Bytes)
    (address : String)
    (h : WitnessScriptHashAddress chainParams redeemScript = (address, none)) :
    60 ≤ address.length := by
  rw [WitnessScriptHashAddress_ok chainParams redeemScript address h,
    Crypto.Bech32.Encode_length, List.length_cons,
    Crypto.Bech32.toBase32_length _ _ _ (by norm_num), Crypto.SHA256.Sum256_length]
  omega

theorem NestedScriptHashAddress_eq (chainParams : Params) (redeemScript : Bytes) :
    NestedScriptHashAddress chainParams redeemScript =
      (Crypto.Base58.CheckEncode (Crypto.Hash160 (witnessProgram redeemScript))
        chainParams.ScriptHashAddrID, none) := rfl

theorem NestedScriptHashAddress_length (chainParams : Params) (redeemScript : Bytes) :
    (NestedScriptHashAddress chainParams redeemScript).1.length ≤ 50 := by
  have h := Crypto.Base58.CheckEncode_length_le (Crypto.Hash160 (witnessProgram redeemScript))
    chainParams.ScriptHashAddrID
  rw [Crypto.Hash160_length] at h
  simpa [NestedScriptHashAddress] using h

theorem NestedScriptHashAddress_ne_empty (chainParams : Params) (redeemScript : Bytes) :
    (NestedScriptHashAddress chainParams redeemScript).1 ≠ "" :=
  Crypto.Base58.CheckEncode_ne_empty _ _

/-- The two derived forms of a script are different strings: a witness script hash address
has at least 60 characters, a nested script hash address at most 50. -/
theorem witness_ne_nested (chainParams : Params) (redeemScript : Bytes) (address : String)
    (h : WitnessScriptHashAddress chainParams redeemScript = (address, none)) :
    address ≠ (NestedScriptHashAddress chainParams redeemScript).1 := by
  intro hc
  have h1 := WitnessScriptHashAddress_length chainParams redeemScript address h
  have h2 := NestedScriptHashAddress_length chainParams redeemScript
  rw [← hc] at h2
  omega

theorem CheckSwapAddress_accepts_witness (chainParams : Params) (redeemScript : Bytes)
    (address : String)
    (h : WitnessScriptHashAddress chainParams redeemScript = (address, none)) :
    CheckSwapAddress chainParams address redeemScript false = none := by
  have hne : address ≠ "" := by
    rw [WitnessScriptHashAddress_ok chainParams redeemScript address h]
    exact Crypto.Bech32.Encode_hrp_ne_empty _ _
  simp [CheckSwapAddress, h, hne]

theorem CheckSwapAddress_accepts_nested (chainParams : Params) (redeemScript : Bytes)
    (address : String)
    (h : NestedScriptHashAddress chainParams redeemScript = (address, none)) :
    CheckSwapAddress chainParams address redeemScript true = none := by
  have hne : address ≠ "" := by
    have := NestedScriptHashAddress_ne_empty chainParams redeemScript
    rwa [h] at this
  simp [CheckSwapAddress, h, hne]

/-- C1. Round trip of address derivation and verification: for every chain parameter set
and every redeem script, an address `WitnessScriptHashAddress` derives without error passes
`CheckSwapAddress` with `isReverseSwap = false`, and an address `NestedScriptHashAddress`
derives without error passes it with `isReverseSwap = true`. -/
theorem CheckSwapAddress_roundtrip (chainParams : Params) (redeemScript : Bytes) :
    (∀ address, WitnessScriptHashAddress chainParams redeemScript = (address, none) →
      CheckSwapAddress chainParams address redeemScript false = none) ∧
    (∀ address, NestedScriptHashAddress chainParams redeemScript = (address, none) →
      CheckSwapAddress chainParams address redeemScript true = none) :=
  ⟨CheckSwapAddress_accepts_witness chainParams redeemScript,
   CheckSwapAddress_accepts_nested chainParams redeemScript⟩

set_option maxRecDepth 100000 in
/-- Go `TestWitnessScriptHashAddress`, `TestScriptHashAddress` and
`TestNestedScriptHashAddress` of boltz/address_test.go. -/
theorem TestScriptHashAddresses :
    WitnessScriptHashAddress MainNetParams testRedeemScript =
      ("bc1q73lzkly9le40qxym5wh5wyp0davanw3u9m0u28wafay4ay7z34cscztt48", none) ∧
    ScriptHashAddress MainNetParams testRedeemScript =
      ("32Hjgh4J1kZFGbuJ9aPwqmqz3L5GkhNAzR", none) ∧
    NestedScriptHashAddress MainNetParams testRedeemScript =
      ("3F8UixJcrfxCaGpRryyRuKotBFXRFeW7ej", none) := by
  decide!

/-- The accepting checks of `TestCheckSwapAddress` of boltz/address_test.go. -/
theorem CheckSwapAddress_roundtrip_witness :
    CheckSwapAddress MainNetParams "3F8UixJcrfxCaGpRryyRuKotBFXRFeW7ej" testRedeemScript
      true = none ∧
    CheckSwapAddress MainNetParams
      "bc1q73lzkly9le40qxym5wh5wyp0davanw3u9m0u28wafay4ay7z34cscztt48" testRedeemScript
      false = none :=
  ⟨(CheckSwapAddress_roundtrip MainNetParams testRedeemScript).2 _ TestScriptHashAddresses.2.2,
   (CheckSwapAddress_roundtrip MainNetParams testRedeemScript).1 _ TestScriptHashAddresses.1⟩

/-- C7. An empty address is always rejected: for every chain parameter set, every redeem
script and both directions `CheckSwapAddress` returns the error `invalid address` on the
empty address; and it returns no error other than this one on any address. -/
theorem CheckSwapAddress_empty (chainParams : Params) (redeemScript : Bytes)
    (isReverseSwap : Bool) :
    CheckSwapAddress chainParams "" redeemScript isReverseSwap =
      some (Error.New "invalid address") ∧
    ∀ address, CheckSwapAddress chainParams address redeemScript isReverseSwap = none ∨
      CheckSwapAddress chainParams address redeemScript isReverseSwap =
        some (Error.New "invalid address") := by
  refine ⟨by simp [CheckSwapAddress, InvalidAddress], fun address => ?_⟩
  by_cases hemp : address = ""
  · right
    simp [CheckSwapAddress, InvalidAddress, hemp]
  · rcases hacc : (if isReverseSwap then NestedScriptHashAddress chainParams redeemScript
        else WitnessScriptHashAddress chainParams redeemScript) with ⟨encoded, _ | e⟩
    · by_cases heq : address = encoded
      · left
        subst heq
        simp [CheckSwapAddress, hacc, hemp]
      · right
        simp [CheckSwapAddress, InvalidAddress, hacc, hemp, heq]
    · right
      simp [CheckSwapAddress, InvalidAddress, hacc, hemp]

/-- C8. Direction exclusivity: for every chain parameter set and every redeem script,
`CheckSwapAddress` rejects with `invalid address` the derived witness script hash address
when `isReverseSwap = true` and the derived nested script hash address when
`isReverseSwap = false`; it accepts an address exactly when the address is, character for
character, the one form derived for the given direction. -/
theorem CheckSwapAddress_direction (chainParams : Params) (redeemScript : Bytes) :
    (∀ address, WitnessScriptHashAddress chainParams redeemScript = (address, none) →
      CheckSwapAddress chainParams address redeemScript true =
        some (Error.New "invalid address")) ∧
    (∀ address, NestedScriptHashAddress chainParams redeemScript = (address, none) →
      CheckSwapAddress chainParams address redeemScript false =
        some (Error.New "invalid address")) ∧
    (∀ address, CheckSwapAddress chainParams address redeemScript true = none ↔
      NestedScriptHashAddress chainParams redeemScript = (address, none)) ∧
    (∀ address, CheckSwapAddress chainParams address redeemScript false = none ↔
      WitnessScriptHashAddress chainParams redeemScript = (address, none)) := by
  refine ⟨?_, ?_, ?_, ?_⟩
  · intro address h
    have hne := witness_ne_nested chainParams redeemScript address h
    have hlen := WitnessScriptHashAddress_length chainParams redeemScript address h
    have hemp : address ≠ "" := by
      intro hc
      rw [hc] at hlen
      simp at hlen
    simp only [NestedScriptHashAddress_eq] at hne
    simp [CheckSwapAddress, NestedScriptHashAddress_eq, InvalidAddress, hne, hemp]
  · intro address h
    have hemp : address ≠ "" := by
      have := NestedScriptHashAddress_ne_empty chainParams redeemScript
      rwa [h] at this
    rcases hw : WitnessScriptHashAddress chainParams redeemScript with ⟨w, _ | e⟩
    · have hne := witness_ne_nested chainParams redeemScript w hw
      rw [h] at hne
      simp [CheckSwapAddress, hw, InvalidAddress, hemp, Ne.symm hne]
    · simp [CheckSwapAddress, hw, InvalidAddress, hemp]
  · intro address
    constructor
    · intro h
      by_cases hemp : address = ""
      · simp [CheckSwapAddress, hemp] at h
      · by_cases heq : address = Crypto.Base58.CheckEncode
            (Crypto.Hash160 (witnessProgram redeemScript)) chainParams.ScriptHashAddrID
        · rw [NestedScriptHashAddress_eq, heq]
        · simp [CheckSwapAddress, NestedScriptHashAddress_eq, hemp, heq] at h
    · intro h
      exact CheckSwapAddress_accepts_nested chainParams redeemScript address h
  · intro address
    constructor
    · intro h
      by_cases hemp : address = ""
      · simp [CheckSwapAddress, hemp] at h
      · rcases hw : WitnessScriptHashAddress chainParams redeemScript with ⟨w, _ | e⟩
        · by_cases heq : address = w
          · rw [heq]
          · simp [CheckSwapAddress, hw, hemp, heq] at h
        · simp [CheckSwapAddress, hw, hemp] at h
    · intro h
      exact CheckSwapAddress_accepts_witness chainParams redeemScript address h

/-- The rejecting checks of `TestCheckSwapAddress` of boltz/address_test.go, and the derived
addresses of the test checked in the other direction. -/
theorem TestCheckSwapAddress_rejects :
    CheckSwapAddress MainNetParams "" testRedeemScript true =
      some (Error.New "invalid address") ∧
    CheckSwapAddress MainNetParams "" testRedeemScript false =
      some (Error.New "invalid address") ∧
    CheckSwapAddress MainNetParams
      "bc1q73lzkly9le40qxym5wh5wyp0davanw3u9m0u28wafay4ay7z34cscztt48" testRedeemScript
      true = some (Error.New "invalid address") ∧
    CheckSwapAddress MainNetParams "3F8UixJcrfxCaGpRryyRuKotBFXRFeW7ej" testRedeemScript
      false = some (Error.New "invalid address") :=
  ⟨rfl, rfl,
   by
    have h := TestScriptHashAddresses
    simp [CheckSwapAddress, h.2.2, InvalidAddress],
   by
    have h := TestScriptHashAddresses
    simp [CheckSwapAddress, h.1, InvalidAddress]⟩

end BoltzLnd
